import Mathlib

/-!
Shallow embedding of the pipeline-orchestrator subsystem of the
`Parth232004/ai-assistant` repository, covering:

* `src/pipeline_orchestrator.py` — the "async" `PipelineOrchestrator`
  (namespace `Orch` below), and
* `src/simple_pipeline_orchestrator.py` — the "sync"
  `SimplePipelineOrchestrator` (namespace `SimpleOrch` below).

Modelling conventions:

* JSON object values are abstracted to `String`; a data context
  (Python `dict`) is an association list with unique keys, mutated by
  `ctxUpsert` / `ctxUpdate` mirroring `dict.__setitem__` / `dict.update`.
* The HTTP boundary is an oracle: a `World` is the list of outcomes the
  downstream services would return to successive HTTP requests, consumed
  one per request actually issued.  An exhausted `World` behaves as a
  transport error.
* Wall-clock time is a `Nat`; the orchestrator threads a logical clock
  (one tick per step) and the circuit-breaker operations take the current
  time as an explicit argument, exactly where the Python calls
  `time.time()` / `datetime.now()`.  Timestamp and duration values on
  step records are abstracted away (only the execution-level start/end
  fields are kept, since properties refer to them being set).
* Python exception objects are the inductive `StepError`; `str(e)` is
  `StepError.message` (the exact rendering of the missing-field list is
  abstracted, the surrounding text is kept).
-/

namespace AiAssistant

/-- A JSON-like data context (Python `dict[str, str]` up to value
abstraction): association list with unique keys. -/
abbrev Ctx := List (String × String)

/-- Python `k in d` for a context. -/
def ctxHas (c : Ctx) (k : String) : Bool :=
  c.any (fun kv => kv.fst == k)

/-- Python `d.get(k)` for a context. -/
def ctxGet (c : Ctx) (k : String) : Option String :=
  (c.find? (fun kv => kv.fst == k)).map (fun kv => kv.snd)

/-- Python `d[k] = v`: replace in place if the key exists, else append
(insertion order preserved, as for Python dicts). -/
def ctxUpsert (c : Ctx) (k : String) (v : String) : Ctx :=
  if ctxHas c k then
    c.map (fun kv => if kv.fst == k then (kv.fst, v) else kv)
  else
    c ++ [(k, v)]

/-- Python `c.update(d)`. -/
def ctxUpdate (c : Ctx) (d : Ctx) : Ctx :=
  d.foldl (fun acc kv => ctxUpsert acc kv.fst kv.snd) c

/-- The `StepStatus` enum, defined identically in both
`pipeline_orchestrator.py` and `simple_pipeline_orchestrator.py`. -/
inductive StepStatus
  | pending
  | in_progress
  | completed
  | failed
  | skipped
deriving DecidableEq, Repr

/-- The `PipelineMode` enum (both files). -/
inductive PipelineMode
  | quick
  | analysis
  | full
deriving DecidableEq, Repr

/-- The string `mode.value` of the Python enum. -/
def PipelineMode.value : PipelineMode → String
  | .quick => "quick_mode"
  | .analysis => "analysis_mode"
  | .full => "full_pipeline"

/-- One entry of `config["sequence"]["steps"]`. -/
structure StepConfig where
  name : String
  component : String
  enabled : Bool
  endpoint : String
  timeout : Nat
  retry_count : Nat
  required_fields : List String
  output_fields : List String
deriving DecidableEq, Repr

/-- The `config["error_handling"]["circuit_breaker"]` section. -/
structure CircuitBreakerConfig where
  enabled : Bool
  failure_threshold : Nat
  recovery_timeout : Nat
deriving DecidableEq, Repr

/-- The `config["error_handling"]` section. -/
structure ErrorHandlingConfig where
  retry_delays : List Nat
  circuit_breaker : CircuitBreakerConfig
  fallback_responses : List (String × Ctx)
deriving DecidableEq, Repr

/-- The `config["routing"]` section. -/
structure RoutingConfig where
  default_flow : List String
  bypass_modes : List (String × List String)
deriving DecidableEq, Repr

/-- One entry of `config["components"]`. -/
structure ComponentConfig where
  base_url : String
  health_endpoint : String
  enabled : Bool
deriving DecidableEq, Repr

/-- The loaded pipeline configuration (the parts the orchestrators read). -/
structure Config where
  steps : List StepConfig
  routing : RoutingConfig
  components : List (String × ComponentConfig)
  error_handling : ErrorHandlingConfig
deriving DecidableEq, Repr

/-- Circuit-breaker state strings used in `pipeline_orchestrator.py`:
`"closed"`, `"open"`, `"half-open"`. -/
inductive BreakerState
  | closed
  | open_
  | half_open
deriving DecidableEq, Repr

/-- One `self.circuit_breakers[component]` entry. -/
structure Breaker where
  failures : Nat
  last_failure : Option Nat
  state : BreakerState
deriving DecidableEq, Repr

/-- The initial breaker installed for every component in `__init__`. -/
def Breaker.init : Breaker :=
  { failures := 0, last_failure := none, state := .closed }

/-- Per-component breaker registry `self.circuit_breakers`. -/
abbrev Breakers := String → Breaker

/-- Point update of the registry. -/
def setBreaker (bs : Breakers) (component : String) (b : Breaker) : Breakers :=
  fun x => if x = component then b else bs x

/-- Method `_is_circuit_open` (pipeline_orchestrator.py, lines 329-344), acting on
a single breaker record: returns whether the call is blocked, together with
the possibly-updated breaker (the lazy `open -> half-open` transition). -/
def breakerCheck (cfg : Config) (b : Breaker) (now : Nat) : Bool × Breaker :=
  if cfg.error_handling.circuit_breaker.enabled = false then
    (false, b)
  else
    match b.state with
    | .open_ =>
      match b.last_failure with
      | some t =>
        if now - t > cfg.error_handling.circuit_breaker.recovery_timeout then
          (false, { b with state := .half_open })
        else
          (true, b)
      | none => (true, b)
    | _ => (false, b)

/-- Method `_record_failure` (lines 346-355) on a single breaker record. -/
def breakerRecord (cfg : Config) (b : Breaker) (now : Nat) : Breaker :=
  { failures := b.failures + 1
    last_failure := some now
    state :=
      if b.failures + 1 ≥ cfg.error_handling.circuit_breaker.failure_threshold then
        .open_
      else
        b.state }

/-- Method `_reset_circuit_breaker` (lines 357-361) on a single breaker record. -/
def breakerReset (b : Breaker) : Breaker :=
  { b with failures := 0, state := .closed }

/-- Method `_is_circuit_open` at registry level. -/
def is_circuit_open (cfg : Config) (bs : Breakers) (component : String) (now : Nat) :
    Bool × Breakers :=
  let r := breakerCheck cfg (bs component) now
  (r.fst, setBreaker bs component r.snd)

/-- Method `_record_failure` at registry level. -/
def record_failure (cfg : Config) (bs : Breakers) (component : String) (now : Nat) :
    Breakers :=
  setBreaker bs component (breakerRecord cfg (bs component) now)

/-- Method `_reset_circuit_breaker` at registry level. -/
def reset_circuit_breaker (bs : Breakers) (component : String) : Breakers :=
  setBreaker bs component (breakerReset (bs component))

/-- Outcome of one downstream HTTP request: a parsed 2xx JSON body, or a
transport / non-2xx error (which `raise_for_status` turns into an
exception). -/
inductive HttpResult
  | success (body : Ctx)
  | failure (msg : String)
deriving DecidableEq, Repr

/-- The sequence of outcomes the downstream services return to successive
HTTP requests. -/
abbrev World := List HttpResult

deriving instance DecidableEq for Except

/-- The exceptions a step execution can surface. -/
inductive StepError
  | validation (missing : List String)
  | http (msg : String)
  | breaker_open (component : String)
deriving DecidableEq, Repr

/-- Python `str(e)` for a `StepError` (list rendering abstracted). -/
def StepError.message : StepError → String
  | .validation missing =>
      "Missing required fields: " ++ String.intercalate ", " missing
  | .http m => m
  | .breaker_open c => "Circuit breaker open for component " ++ c

/-- The required fields absent from the context
(`missing_fields` in `_execute_single_step`). -/
def missingFields (sc : StepConfig) (data : Ctx) : List String :=
  sc.required_fields.filter (fun f => !(ctxHas data f))

/-- The `request_data` construction in `_execute_single_step`: required fields
first (in declaration order), then pass-through of the remaining context
keys. -/
def prepare_request_data (sc : StepConfig) (data : Ctx) : Ctx :=
  let base : Ctx := sc.required_fields.foldl
    (fun acc f =>
      match ctxGet data f with
      | some v => ctxUpsert acc f v
      | none => acc)
    []
  data.foldl
    (fun acc kv => if ctxHas acc kv.fst then acc else acc ++ [kv])
    base

/-- Method `_execute_single_step`, textually identical in both orchestrator files
(pipeline_orchestrator.py lines 280-310, simple_pipeline_orchestrator.py
lines 275-301): validate required fields (raising before any HTTP request
when one is missing), then issue one HTTP request whose outcome is the
next element of the `World`.  Returns the result, the remaining world and
the number of HTTP requests issued (0 or 1). -/
def execute_single_step (sc : StepConfig) (data : Ctx) (world : World) :
    Except StepError Ctx × World × Nat :=
  if (missingFields sc data).isEmpty then
    match world with
    | .success body :: rest => (.ok body, rest, 1)
    | .failure msg :: rest => (.error (.http msg), rest, 1)
    | [] => (.error (.http "connection error"), [], 1)
  else
    (.error (.validation (missingFields sc data)), world, 0)

/-- Observable side effects of one step-executor invocation: number of
`_execute_single_step` call attempts, number of HTTP requests actually
issued, and the sequence of inter-retry sleep delays. -/
structure Trace where
  calls : Nat
  http_calls : Nat
  sleeps : List Nat
deriving DecidableEq, Repr

/-- The empty trace, before the executor has done anything. -/
def Trace.nil : Trace := { calls := 0, http_calls := 0, sleeps := [] }

/-- One produced `PipelineStep` record, as observable after the run
(timestamps and durations abstracted; same dataclass in both files). -/
structure StepRec where
  name : String
  component : String
  status : StepStatus
  input_data : Ctx
  output_data : Option Ctx
  error : Option String
deriving DecidableEq, Repr

/-- A `PipelineExecution` record as observable after the run. -/
structure PipelineExecution where
  execution_id : String
  mode : PipelineMode
  status : StepStatus
  start_time : Nat
  end_time : Option Nat
  total_duration_ms : Option Nat
  steps : List StepRec
  error : Option String
deriving DecidableEq, Repr

/-- Method `_get_step_sequence` (identical in both files):
`bypass_modes.get(mode.value, default_flow)`. -/
def get_step_sequence (cfg : Config) (mode : PipelineMode) : List String :=
  match cfg.routing.bypass_modes.find? (fun kv => kv.fst == mode.value) with
  | some kv => kv.snd
  | none => cfg.routing.default_flow

/-- The shared core of `_get_step_config`: linear search of
`config["sequence"]["steps"]` by name.  The async orchestrator raises
`ValueError` when the result is `none` (modelled at its call site); the
sync one returns `None`. -/
def get_step_config (cfg : Config) (name : String) : Option StepConfig :=
  cfg.steps.find? (fun s => s.name == name)

/-- Method `_get_fallback_data`: `fallback_responses.get(step_name)`. -/
def get_fallback_data (cfg : Config) (name : String) : Option Ctx :=
  (cfg.error_handling.fallback_responses.find? (fun kv => kv.fst == name)).map
    (fun kv => kv.snd)

/-- Whether `_get_fallback_data` yields a payload that passes the Python
truthiness test `if fallback_data:` (a configured empty dict is falsy). -/
def fallbackUsable (cfg : Config) (name : String) : Bool :=
  match get_fallback_data cfg name with
  | some fb => !fb.isEmpty
  | none => false

/-- The f-string `f"Critical step {step_name} failed: {e}"` of
`execute_pipeline`. -/
def criticalErrorMsg (name msg : String) : String :=
  "Critical step " ++ name ++ " failed: " ++ msg

namespace Orch

/-- The delay `retry_delays[min(attempt, len(retry_delays) - 1)]`. -/
def retryDelay (cfg : Config) (attempt : Nat) : Nat :=
  (cfg.error_handling.retry_delays).getD
    (min attempt (cfg.error_handling.retry_delays.length - 1)) 0

/-- Result of one invocation of the async step executor. -/
structure RetryOut where
  result : Except StepError Ctx
  breakers : Breakers
  world : World
  trace : Trace

/-- The `for attempt in range(retry_count + 1)` loop body of
`_execute_step_with_retry` (pipeline_orchestrator.py lines 255-278).
`left` is the number of attempts still available after the current one
(`retry_count - attempt`); on success the breaker is reset, on the final
failed attempt one failure is recorded and the last exception re-raised,
otherwise the configured delay is slept and the loop continues. -/
def retryGo (cfg : Config) (sc : StepConfig) (data : Ctx) (now : Nat) :
    Nat → Nat → Breakers → World → Trace → RetryOut
  | attempt, left, bs, world, tr =>
    let s := execute_single_step sc data world
    let tr' : Trace :=
      { tr with calls := tr.calls + 1, http_calls := tr.http_calls + s.snd.snd }
    match s.fst with
    | .ok out =>
      { result := .ok out
        breakers := reset_circuit_breaker bs sc.component
        world := s.snd.fst
        trace := tr' }
    | .error e =>
      match left with
      | Nat.succ left' =>
        retryGo cfg sc data now (attempt + 1) left' bs s.snd.fst
          { tr' with sleeps := tr'.sleeps ++ [retryDelay cfg attempt] }
      | 0 =>
        { result := .error e
          breakers := record_failure cfg bs sc.component now
          world := s.snd.fst
          trace := tr' }

/-- Method `_execute_step_with_retry` (lines 244-278): consult the circuit
breaker (raising a breaker-open error before any attempt when it blocks),
then run the attempt loop. -/
def execute_step_with_retry (cfg : Config) (bs : Breakers) (sc : StepConfig)
    (data : Ctx) (world : World) (now : Nat) : RetryOut :=
  let c := is_circuit_open cfg bs sc.component now
  if c.fst then
    { result := .error (.breaker_open sc.component)
      breakers := c.snd
      world := world
      trace := Trace.nil }
  else
    retryGo cfg sc data now 0 sc.retry_count c.snd world Trace.nil

/-- How the step loop of `execute_pipeline` terminated: normally, by the
`break` after a critical step failed with no usable fallback (which has
already set the execution status and error), or by an exception
propagating to the top-level handler (unknown step name). -/
inductive StepsOutcome
  | ok
  | exec_failed (msg : String)
  | exc (msg : String)
deriving DecidableEq, Repr

/-- Result of the step loop. -/
structure StepsOut where
  outcome : StepsOutcome
  steps : List StepRec
  ctx : Ctx
  world : World
  breakers : Breakers
  clock : Nat

/-- The `for step_name in step_sequence` loop of `execute_pipeline`
(pipeline_orchestrator.py lines 173-224): look up the step config
(raising when absent), skip disabled steps without appending any record,
otherwise execute with retry; on success merge the output into the
context; on failure, for critical steps merge a truthy fallback payload
or fail the execution and stop, for non-critical steps continue
unchanged. -/
def runSteps (cfg : Config) :
    List String → Ctx → World → Breakers → Nat → StepsOut
  | [], ctx, world, bs, clock =>
    { outcome := .ok, steps := [], ctx := ctx, world := world,
      breakers := bs, clock := clock }
  | name :: rest, ctx, world, bs, clock =>
    match get_step_config cfg name with
    | none =>
      { outcome := .exc ("Step configuration not found: " ++ name)
        steps := [], ctx := ctx, world := world, breakers := bs, clock := clock }
    | some sc =>
      if sc.enabled then
        let ro := execute_step_with_retry cfg bs sc ctx world clock
        match ro.result with
        | .ok out =>
          let so := runSteps cfg rest (ctxUpdate ctx out) ro.world ro.breakers (clock + 1)
          { outcome := so.outcome
            steps := { name := name, component := sc.component,
                       status := .completed, input_data := ctx,
                       output_data := some out, error := none } :: so.steps
            ctx := so.ctx, world := so.world, breakers := so.breakers,
            clock := so.clock }
        | .error e =>
          let failRec : StepRec :=
            { name := name, component := sc.component, status := .failed,
              input_data := ctx, output_data := none, error := some e.message }
          if cfg.routing.default_flow.contains name then
            match get_fallback_data cfg name with
            | some fb =>
              if fb.isEmpty then
                { outcome := .exec_failed (criticalErrorMsg name e.message)
                  steps := [failRec], ctx := ctx, world := ro.world,
                  breakers := ro.breakers, clock := clock + 1 }
              else
                let so := runSteps cfg rest (ctxUpdate ctx fb) ro.world ro.breakers (clock + 1)
                { outcome := so.outcome, steps := failRec :: so.steps,
                  ctx := so.ctx, world := so.world, breakers := so.breakers,
                  clock := so.clock }
            | none =>
              { outcome := .exec_failed (criticalErrorMsg name e.message)
                steps := [failRec], ctx := ctx, world := ro.world,
                breakers := ro.breakers, clock := clock + 1 }
          else
            let so := runSteps cfg rest ctx ro.world ro.breakers (clock + 1)
            { outcome := so.outcome, steps := failRec :: so.steps,
              ctx := so.ctx, world := so.world, breakers := so.breakers,
              clock := so.clock }
      else
        runSteps cfg rest ctx world bs clock

/-- Result of one `execute_pipeline` call: the returned record plus the
surviving mutable state (accumulated context, HTTP world, breaker
registry, clock). -/
structure RunResult where
  execution : PipelineExecution
  final_ctx : Ctx
  world : World
  breakers : Breakers
  clock : Nat

/-- Method `execute_pipeline` (pipeline_orchestrator.py lines 146-242):
resolve the mode's step sequence, run the loop, then set the final status
(`COMPLETED` unless the loop marked the execution failed or an exception
was caught) and finalize end time / duration.  History handling is in
`execute_pipeline_hist`. -/
def execute_pipeline (cfg : Config) (input_data : Ctx) (mode : PipelineMode)
    (execution_id : String) (world : World) (bs : Breakers) (clock : Nat) :
    RunResult :=
  let so := runSteps cfg (get_step_sequence cfg mode) input_data world bs (clock + 1)
  let st : StepStatus × Option String :=
    match so.outcome with
    | .ok => (.completed, none)
    | .exec_failed msg => (.failed, some msg)
    | .exc msg => (.failed, some msg)
  { execution :=
      { execution_id := execution_id, mode := mode, status := st.fst,
        start_time := clock, end_time := some (so.clock + 1),
        total_duration_ms := some (so.clock + 1 - clock),
        steps := so.steps, error := st.snd }
    final_ctx := so.ctx, world := so.world, breakers := so.breakers,
    clock := so.clock + 2 }

/-- Method `execute_pipeline` together with the `finally:` append to
`self.execution_history`. -/
def execute_pipeline_hist (cfg : Config) (input_data : Ctx) (mode : PipelineMode)
    (execution_id : String) (world : World) (bs : Breakers) (clock : Nat)
    (history : List PipelineExecution) :
    RunResult × List PipelineExecution :=
  let r := execute_pipeline cfg input_data mode execution_id world bs clock
  (r, history ++ [r.execution])

end Orch

namespace SimpleOrch

/-- Result of one invocation of the sync step executor (no breaker). -/
structure RetryOut where
  result : Except StepError Ctx
  world : World
  trace : Trace

/-- The attempt loop of `SimplePipelineOrchestrator._execute_step_with_retry`
(simple_pipeline_orchestrator.py lines 258-273): same shape as the async
loop but with a fixed 1-second delay and no circuit breaker. -/
def retryGo (sc : StepConfig) (data : Ctx) :
    Nat → World → Trace → RetryOut
  | left, world, tr =>
    let s := execute_single_step sc data world
    let tr' : Trace :=
      { tr with calls := tr.calls + 1, http_calls := tr.http_calls + s.snd.snd }
    match s.fst with
    | .ok out => { result := .ok out, world := s.snd.fst, trace := tr' }
    | .error e =>
      match left with
      | Nat.succ left' =>
        retryGo sc data left' s.snd.fst { tr' with sleeps := tr'.sleeps ++ [1] }
      | 0 => { result := .error e, world := s.snd.fst, trace := tr' }

/-- Method `SimplePipelineOrchestrator._execute_step_with_retry`. -/
def execute_step_with_retry (sc : StepConfig) (data : Ctx) (world : World) :
    RetryOut :=
  retryGo sc data sc.retry_count world Trace.nil

/-- The hard-coded mock payload merged into the context when a step fails
(simple_pipeline_orchestrator.py lines 221-243); steps with other names
merge nothing. -/
def mockData (execution_id : String) (input_data : Ctx) (name : String) : Ctx :=
  if name = "summarize" then
    [("summary_id", "sum_" ++ execution_id),
     ("summary",
      "Mock summary: " ++ ((ctxGet input_data "message_text").getD "").take 50 ++ "..."),
     ("intent", "info"),
     ("urgency", "medium"),
     ("type", "general")]
  else if name = "process_summary" then
    [("task_id", "task_" ++ execution_id),
     ("task_summary", "Mock task created"),
     ("priority", "medium"),
     ("status", "pending")]
  else if name = "respond" then
    [("response_id", "resp_" ++ execution_id),
     ("response_text", "Mock response generated"),
     ("tone", "neutral"),
     ("status", "ok")]
  else
    []

/-- Result of the sync step loop. -/
structure StepsOut where
  steps : List StepRec
  ctx : Ctx
  world : World

/-- The step loop of `SimplePipelineOrchestrator.execute_pipeline`
(lines 188-243): unknown or disabled steps are skipped without any
record; failures never abort — the mock payload for the step's name (if
any) is merged and the loop continues. -/
def runSteps (cfg : Config) (execution_id : String) (input_data : Ctx) :
    List String → Ctx → World → StepsOut
  | [], ctx, world => { steps := [], ctx := ctx, world := world }
  | name :: rest, ctx, world =>
    match get_step_config cfg name with
    | none => runSteps cfg execution_id input_data rest ctx world
    | some sc =>
      if sc.enabled then
        let ro := execute_step_with_retry sc ctx world
        match ro.result with
        | .ok out =>
          let so := runSteps cfg execution_id input_data rest (ctxUpdate ctx out) ro.world
          { steps := { name := name, component := sc.component,
                       status := .completed, input_data := ctx,
                       output_data := some out, error := none } :: so.steps
            ctx := so.ctx, world := so.world }
        | .error e =>
          let so := runSteps cfg execution_id input_data rest
            (ctxUpdate ctx (mockData execution_id input_data name)) ro.world
          { steps := { name := name, component := sc.component,
                       status := .failed, input_data := ctx,
                       output_data := none, error := some e.message } :: so.steps
            ctx := so.ctx, world := so.world }
      else
        runSteps cfg execution_id input_data rest ctx world

/-- Result of one sync `execute_pipeline` call. -/
structure RunResult where
  execution : PipelineExecution
  final_ctx : Ctx
  world : World

/-- Method `SimplePipelineOrchestrator.execute_pipeline` (lines 163-256): run the
loop, then unconditionally mark the execution `COMPLETED` (the sync
variant has no critical-step abort; its top-level handler has nothing in
this model that can raise), finalize end time / duration. -/
def execute_pipeline (cfg : Config) (input_data : Ctx) (mode : PipelineMode)
    (execution_id : String) (world : World) (clock : Nat) : RunResult :=
  let so := runSteps cfg execution_id input_data
    (get_step_sequence cfg mode) input_data world
  { execution :=
      { execution_id := execution_id, mode := mode, status := .completed,
        start_time := clock, end_time := some (clock + 1),
        total_duration_ms := some 1, steps := so.steps, error := none }
    final_ctx := so.ctx, world := so.world }

end SimpleOrch

/-- Values appearing in the metrics dictionary: exact rationals for the
numeric entries (Python float arithmetic and 2-decimal display rounding
are modelled exactly / by round-half-up, immaterial to the properties
stated below) and strings for timestamps. -/
inductive MetricValue
  | num (q : ℚ)
  | str (s : String)
deriving DecidableEq

/-- Python `round(x, 2)` (modelled as round-half-up to 2 decimals). -/
def round2 (q : ℚ) : ℚ :=
  (Int.floor (q * 100 + 1 / 2) : ℚ) / 100

/-- Method `get_pipeline_metrics`, identical in both orchestrator files
(pipeline_orchestrator.py lines 423-441, simple_pipeline_orchestrator.py
lines 362-380): an empty history yields only the `total_executions`
entry; otherwise the six aggregate entries. -/
def get_pipeline_metrics (history : List PipelineExecution) :
    List (String × MetricValue) :=
  if history.isEmpty then
    [("total_executions", .num 0)]
  else
    let successful := history.filter (fun e => e.status == StepStatus.completed)
    let failed := history.filter (fun e => e.status == StepStatus.failed)
    let avg_duration : ℚ :=
      if successful.isEmpty then 0
      else (successful.map (fun e => ((e.total_duration_ms.getD 0 : Nat) : ℚ))).sum
        / (successful.length : ℚ)
    let success_rate : ℚ :=
      if history.isEmpty then 0
      else (successful.length : ℚ) / (history.length : ℚ) * 100
    [("total_executions", .num (history.length : ℚ)),
     ("successful_executions", .num (successful.length : ℚ)),
     ("failed_executions", .num (failed.length : ℚ)),
     ("success_rate_percent", .num (round2 success_rate)),
     ("avg_duration_ms", .num (round2 avg_duration)),
     ("last_execution",
      .str (toString ((history.getLast?.map (fun e => e.start_time)).getD 0)))]

/-- Lookup of a metrics entry by key. -/
def metricLookup (m : List (String × MetricValue)) (k : String) :
    Option MetricValue :=
  (m.find? (fun kv => kv.fst == k)).map (fun kv => kv.snd)

/-- Iterate `n` consecutive `_record_failure` calls on one breaker (all stamped at
time `now`). -/
def recordIter (cfg : Config) (b : Breaker) (now : Nat) : Nat → Breaker
  | 0 => b
  | n + 1 => breakerRecord cfg (recordIter cfg b now n) now

/-- The breaker states reachable from the initial state through the three
operations the orchestrator performs on a breaker (recording a failure,
resetting on success, and consulting it — which may itself transition
`open -> half-open`). -/
inductive BreakerReach (cfg : Config) : Breaker → Prop
  | init : BreakerReach cfg Breaker.init
  | record (b : Breaker) (now : Nat) :
      BreakerReach cfg b → BreakerReach cfg (breakerRecord cfg b now)
  | reset (b : Breaker) :
      BreakerReach cfg b → BreakerReach cfg (breakerReset b)
  | consult (b : Breaker) (now : Nat) :
      BreakerReach cfg b → BreakerReach cfg (breakerCheck cfg b now).snd

/-! ### Concrete test fixtures (used by witnesses and counterexamples) -/

/-- The all-closed breaker registry installed at construction. -/
def bsInit : Breakers := fun _ => Breaker.init

/-- A minimal `summarize` step owned by the `seeya` component, one retry,
requiring `message_text`. -/
def stepSummarize : StepConfig :=
  { name := "summarize", component := "seeya", enabled := true,
    endpoint := "/api/summarize", timeout := 30, retry_count := 1,
    required_fields := ["message_text"], output_fields := ["summary"] }

/-- The `seeya` component entry. -/
def compSeeya : String × ComponentConfig :=
  ("seeya", { base_url := "http://127.0.0.1:8000", health_endpoint := "/health",
              enabled := true })

/-- Config with one enabled critical step, breaker enabled (threshold 2,
recovery 60), retry delays `[2, 5]`, no fallbacks. -/
def cfgRetry : Config :=
  { steps := [stepSummarize]
    routing := { default_flow := ["summarize"], bypass_modes := [] }
    components := [compSeeya]
    error_handling :=
      { retry_delays := [2, 5]
        circuit_breaker :=
          { enabled := true, failure_threshold := 2, recovery_timeout := 60 }
        fallback_responses := [] } }

/-- Like `cfgRetry` but with a fallback payload configured for
`summarize`. -/
def cfgFallback : Config :=
  { cfgRetry with
    error_handling :=
      { cfgRetry.error_handling with
        fallback_responses := [("summarize", [("summary", "(unavailable)")])] } }

/-- Like `cfgRetry` but with the `summarize` step disabled. -/
def cfgDisabled : Config :=
  { cfgRetry with steps := [{ stepSummarize with enabled := false }] }

/-- Like `cfgRetry` but with the circuit breaker disabled, no required
fields and no retries. -/
def cfgNoCb : Config :=
  { cfgRetry with
    steps := [{ stepSummarize with retry_count := 0, required_fields := [] }]
    error_handling :=
      { cfgRetry.error_handling with
        circuit_breaker :=
          { enabled := false, failure_threshold := 2, recovery_timeout := 60 } } }

/-- A breaker registry whose `seeya` breaker is open (two failures
recorded at time 10). -/
def bsOpenSeeya : Breakers :=
  setBreaker bsInit "seeya"
    (recordIter cfgRetry Breaker.init 10 2)

/-- The step record produced when `summarize` exhausts its retries on the
two-failure world (fixture for the C2 witness). -/
def stepRecC2 : StepRec :=
  { name := "summarize", component := "seeya", status := .failed,
    input_data := [("message_text", "hi")], output_data := none,
    error := some "b2" }

/-- The completed step record of the all-success `cfgNoCb` run (fixture
for the C8 witness). -/
def stepRecC8 : StepRec :=
  { name := "summarize", component := "seeya", status := .completed,
    input_data := [], output_data := some [("summary", "s")], error := none }

/-- A finalized successful execution record (for metrics fixtures). -/
def execCompleted : PipelineExecution :=
  { execution_id := "e1", mode := .full, status := .completed,
    start_time := 0, end_time := some 2, total_duration_ms := some 2,
    steps := [], error := none }

/-- A finalized failed execution record (for metrics fixtures). -/
def execFailedRec : PipelineExecution :=
  { execution_id := "e2", mode := .full, status := .failed,
    start_time := 3, end_time := some 5, total_duration_ms := some 2,
    steps := [], error := some "boom" }

/-! ### Lemmas about contexts -/

theorem ctxHas_map_upsertFun (c : Ctx) (k k' v : String) :
    (c.map (fun kv => if kv.fst == k' then (kv.fst, v) else kv)).any
        (fun kv => kv.fst == k)
      = c.any (fun kv => kv.fst == k) := by
  induction c with
  | nil => rfl
  | cons kv rest ih =>
    simp only [List.map_cons, List.any_cons, ih]
    by_cases h : kv.fst == k' <;> simp [h]

theorem ctxHas_upsert_of (c : Ctx) (k k' v : String) (h : ctxHas c k = true) :
    ctxHas (ctxUpsert c k' v) k = true := by
  unfold ctxUpsert
  by_cases hk : ctxHas c k'
  · simp only [hk, if_true]
    unfold ctxHas at h ⊢
    rw [ctxHas_map_upsertFun]
    exact h
  · simp only [hk, if_false]
    unfold ctxHas at h ⊢
    simp [List.any_append, h]

theorem ctxHas_upsert_self (c : Ctx) (k v : String) :
    ctxHas (ctxUpsert c k v) k = true := by
  unfold ctxUpsert
  by_cases hk : ctxHas c k
  · simp only [hk, if_true]
    unfold ctxHas at hk ⊢
    rw [ctxHas_map_upsertFun]
    exact hk
  · simp only [hk, if_false]
    unfold ctxHas
    simp [List.any_append]

theorem ctxUpdate_mono (d c : Ctx) (k : String) (h : ctxHas c k = true) :
    ctxHas (ctxUpdate c d) k = true := by
  induction d generalizing c with
  | nil => exact h
  | cons kv rest ih =>
    unfold ctxUpdate at ih ⊢
    simp only [List.foldl_cons]
    exact ih _ (ctxHas_upsert_of _ _ _ _ h)

theorem ctxUpdate_has_of_mem (d c : Ctx) (kv : String × String) (h : kv ∈ d) :
    ctxHas (ctxUpdate c d) kv.fst = true := by
  induction d generalizing c with
  | nil => cases h
  | cons kv' rest ih =>
    unfold ctxUpdate at ih ⊢
    simp only [List.foldl_cons]
    rcases List.mem_cons.mp h with h1 | h2
    · subst h1
      exact ctxUpdate_mono rest _ _ (ctxHas_upsert_self _ _ _)
    · exact ih _ h2

/-! ### Lemmas about the circuit breaker -/

theorem breakerCheck_failures (cfg : Config) (b : Breaker) (now : Nat) :
    ((breakerCheck cfg b now).snd).failures = b.failures := by
  obtain ⟨f, lf, st⟩ := b
  by_cases he : cfg.error_handling.circuit_breaker.enabled = false
  · simp [breakerCheck, he]
  · cases st <;> try simp [breakerCheck, he]
    cases lf with
    | none => simp [breakerCheck, he]
    | some t =>
      by_cases ht : now - t > cfg.error_handling.circuit_breaker.recovery_timeout
      · simp [breakerCheck, he, ht]
      · simp [breakerCheck, he, ht]

theorem breakerCheck_last (cfg : Config) (b : Breaker) (now : Nat) :
    ((breakerCheck cfg b now).snd).last_failure = b.last_failure := by
  obtain ⟨f, lf, st⟩ := b
  by_cases he : cfg.error_handling.circuit_breaker.enabled = false
  · simp [breakerCheck, he]
  · cases st <;> try simp [breakerCheck, he]
    cases lf with
    | none => simp [breakerCheck, he]
    | some t =>
      by_cases ht : now - t > cfg.error_handling.circuit_breaker.recovery_timeout
      · simp [breakerCheck, he, ht]
      · simp [breakerCheck, he, ht]

theorem breakerCheck_state (cfg : Config) (b : Breaker) (now : Nat) :
    ((breakerCheck cfg b now).snd).state = b.state ∨
      (b.state = .open_ ∧ ((breakerCheck cfg b now).snd).state = .half_open) := by
  obtain ⟨f, lf, st⟩ := b
  by_cases he : cfg.error_handling.circuit_breaker.enabled = false
  · left; simp [breakerCheck, he]
  · cases st
    · left; simp [breakerCheck, he]
    · cases lf with
      | none => left; simp [breakerCheck, he]
      | some t =>
        by_cases ht : now - t > cfg.error_handling.circuit_breaker.recovery_timeout
        · right; exact ⟨rfl, by simp [breakerCheck, he, ht]⟩
        · left; simp [breakerCheck, he, ht]
    · left; simp [breakerCheck, he]

theorem recordIter_failures (cfg : Config) (b : Breaker) (now n : Nat) :
    (recordIter cfg b now n).failures = b.failures + n := by
  induction n with
  | zero => rfl
  | succ n ih => simp [recordIter, breakerRecord, ih]; omega

/-- Invariant: in every reachable breaker state, being `open` or
`half-open` implies the failure count has reached the threshold. -/
theorem breakerReach_threshold (cfg : Config) (b : Breaker)
    (h : BreakerReach cfg b) :
    (b.state = .open_ ∨ b.state = .half_open) →
      cfg.error_handling.circuit_breaker.failure_threshold ≤ b.failures := by
  induction h with
  | init => intro hst; rcases hst with hst | hst <;> simp [Breaker.init] at hst
  | record b now hb ih =>
    intro hst
    by_cases hge :
        cfg.error_handling.circuit_breaker.failure_threshold ≤ b.failures + 1
    · simpa [breakerRecord] using hge
    · have : (breakerRecord cfg b now).state = b.state := by
        simp [breakerRecord]
        omega
      rw [this] at hst
      have := ih hst
      simp [breakerRecord]
      omega
  | reset b hb ih =>
    intro hst
    rcases hst with hst | hst <;> simp [breakerReset] at hst
  | consult b now hb ih =>
    intro hst
    rw [breakerCheck_failures]
    rcases breakerCheck_state cfg b now with hsame | ⟨hopen, _⟩
    · rw [hsame] at hst
      exact ih hst
    · exact ih (Or.inl hopen)

/-! ### Lemmas about the breaker registry -/

theorem setBreaker_self (bs : Breakers) (c : String) (b : Breaker) :
    setBreaker bs c b c = b := by
  simp [setBreaker]

theorem record_failure_at (cfg : Config) (bs : Breakers) (c : String) (now : Nat) :
    record_failure cfg bs c now c = breakerRecord cfg (bs c) now := by
  simp [record_failure, setBreaker]

theorem reset_circuit_breaker_at (bs : Breakers) (c : String) :
    reset_circuit_breaker bs c c = breakerReset (bs c) := by
  simp [reset_circuit_breaker, setBreaker]

theorem is_circuit_open_snd_at (cfg : Config) (bs : Breakers) (c : String) (now : Nat) :
    (is_circuit_open cfg bs c now).snd c = (breakerCheck cfg (bs c) now).snd := by
  simp [is_circuit_open, setBreaker]

theorem is_circuit_open_fst (cfg : Config) (bs : Breakers) (c : String) (now : Nat) :
    (is_circuit_open cfg bs c now).fst = (breakerCheck cfg (bs c) now).fst := by
  simp [is_circuit_open]

/-! ### Lemmas about the step executor -/

theorem single_step_error_not_breaker (sc : StepConfig) (data : Ctx) (world : World)
    (e : StepError) (he : (execute_single_step sc data world).fst = .error e) :
    ∀ c, e ≠ .breaker_open c := by
  intro c
  unfold execute_single_step at he
  by_cases hm : (missingFields sc data).isEmpty
  · rw [if_pos hm] at he
    match world with
    | [] =>
      simp at he
      subst he
      simp
    | .success body :: rest => simp at he
    | .failure msg :: rest =>
      simp at he
      subst he
      simp
  · rw [if_neg hm] at he
    simp at he
    subst he
    simp

namespace Orch

/-- Every run of the attempt loop either succeeds (resetting the breaker)
or surfaces a non-breaker error (recording exactly one failure). -/
theorem retryGo_cases (cfg : Config) (sc : StepConfig) (data : Ctx) (now : Nat) :
    ∀ left attempt bs world tr,
      (∃ out, (retryGo cfg sc data now attempt left bs world tr).result = .ok out ∧
        (retryGo cfg sc data now attempt left bs world tr).breakers
          = reset_circuit_breaker bs sc.component) ∨
      (∃ e, (retryGo cfg sc data now attempt left bs world tr).result = .error e ∧
        (∀ c, e ≠ .breaker_open c) ∧
        (retryGo cfg sc data now attempt left bs world tr).breakers
          = record_failure cfg bs sc.component now) := by
  intro left
  induction left with
  | zero =>
    intro attempt bs world tr
    rw [retryGo]
    rcases hss : (execute_single_step sc data world).fst with e | out
    · right
      exact ⟨e, by simp [hss], single_step_error_not_breaker sc data world e hss,
        by simp [hss]⟩
    · left
      exact ⟨out, by simp [hss], by simp [hss]⟩
  | succ left' ih =>
    intro attempt bs world tr
    rw [retryGo]
    rcases hss : (execute_single_step sc data world).fst with e | out
    · simpa [hss] using ih (attempt + 1) bs (execute_single_step sc data world).snd.fst _
    · left
      exact ⟨out, by simp [hss], by simp [hss]⟩

/-- The attempt loop makes at most `left + 1` call attempts beyond those
already in the trace. -/
theorem retryGo_calls (cfg : Config) (sc : StepConfig) (data : Ctx) (now : Nat) :
    ∀ left attempt bs world tr,
      (retryGo cfg sc data now attempt left bs world tr).trace.calls
        ≤ tr.calls + (left + 1) := by
  intro left
  induction left with
  | zero =>
    intro attempt bs world tr
    rw [retryGo]
    rcases hss : (execute_single_step sc data world).fst with e | out <;> simp [hss]
  | succ left' ih =>
    intro attempt bs world tr
    rw [retryGo]
    rcases hss : (execute_single_step sc data world).fst with e | out
    · simp only [hss]
      have := ih (attempt + 1) bs (execute_single_step sc data world).snd.fst
        { calls := tr.calls + 1,
          http_calls := tr.http_calls + (execute_single_step sc data world).snd.snd,
          sleeps := tr.sleeps ++ [retryDelay cfg attempt] }
      simp at this ⊢
      omega
    · simp [hss]

/-- A missing required field makes every attempt fail with the same
validation error without issuing any HTTP request; the loop nevertheless
runs all `left + 1` attempts, sleeping between them. -/
theorem retryGo_validation (cfg : Config) (sc : StepConfig) (data : Ctx) (now : Nat)
    (hm : (missingFields sc data).isEmpty = false) :
    ∀ left attempt bs world tr,
      (retryGo cfg sc data now attempt left bs world tr).result
          = .error (.validation (missingFields sc data)) ∧
      (retryGo cfg sc data now attempt left bs world tr).world = world ∧
      (retryGo cfg sc data now attempt left bs world tr).trace.http_calls
          = tr.http_calls ∧
      (retryGo cfg sc data now attempt left bs world tr).trace.calls
          = tr.calls + (left + 1) ∧
      (retryGo cfg sc data now attempt left bs world tr).trace.sleeps.length
          = tr.sleeps.length + left := by
  intro left
  induction left with
  | zero =>
    intro attempt bs world tr
    rw [retryGo]
    simp [execute_single_step, hm]
  | succ left' ih =>
    intro attempt bs world tr
    rw [retryGo]
    have hss : execute_single_step sc data world
        = (.error (.validation (missingFields sc data)), world, 0) := by
      simp [execute_single_step, hm]
    rw [hss]
    have := ih (attempt + 1) bs world
      { calls := tr.calls + 1, http_calls := tr.http_calls + 0,
        sleeps := tr.sleeps ++ [retryDelay cfg attempt] }
    simp at this ⊢
    refine ⟨this.1, this.2.1, this.2.2.1, by omega, by omega⟩

/-- Shape of `_execute_step_with_retry` when the circuit breaker blocks. -/
theorem esr_blocked (cfg : Config) (bs : Breakers) (sc : StepConfig)
    (data : Ctx) (world : World) (now : Nat)
    (h : (is_circuit_open cfg bs sc.component now).fst = true) :
    execute_step_with_retry cfg bs sc data world now =
      { result := .error (.breaker_open sc.component)
        breakers := (is_circuit_open cfg bs sc.component now).snd
        world := world
        trace := Trace.nil } := by
  simp [execute_step_with_retry, h]

/-- Shape of `_execute_step_with_retry` when the circuit breaker does not
block. -/
theorem esr_not_blocked (cfg : Config) (bs : Breakers) (sc : StepConfig)
    (data : Ctx) (world : World) (now : Nat)
    (h : (is_circuit_open cfg bs sc.component now).fst = false) :
    execute_step_with_retry cfg bs sc data world now =
      retryGo cfg sc data now 0 sc.retry_count
        (is_circuit_open cfg bs sc.component now).snd world Trace.nil := by
  simp [execute_step_with_retry, h]

end Orch

/-! ### List helpers -/

theorem getLast?_cons_ne_nil {α : Type} (a : α) (l : List α) (h : l ≠ []) :
    (a :: l).getLast? = l.getLast? := by
  cases l with
  | nil => exact absurd rfl h
  | cons b t => rfl

theorem ne_nil_of_getLast?_eq_some {α : Type} {l : List α} {r : α}
    (h : l.getLast? = some r) : l ≠ [] := by
  cases l with
  | nil => simp at h
  | cons b t => simp

/-! ### Lemmas about the async step loop -/

/-- If the async step loop produced a failed record for a critical step
with no usable fallback, the loop stopped right there: the outcome is the
critical-failure abort naming that step, and the record is the last one. -/
theorem runSteps_critical_stops (cfg : Config) (r : StepRec) :
    ∀ (seq : List String) (ctx : Ctx) (world : World) (bs : Breakers) (clock : Nat),
      r ∈ (Orch.runSteps cfg seq ctx world bs clock).steps →
      r.status = .failed →
      cfg.routing.default_flow.contains r.name = true →
      fallbackUsable cfg r.name = false →
      (∃ m, (Orch.runSteps cfg seq ctx world bs clock).outcome
          = .exec_failed (criticalErrorMsg r.name m) ∧ r.error = some m) ∧
      (Orch.runSteps cfg seq ctx world bs clock).steps.getLast? = some r := by
  intro seq
  induction seq with
  | nil =>
    intro ctx world bs clock hmem hfail hcrit hfb
    simp [Orch.runSteps] at hmem
  | cons name rest ih =>
    intro ctx world bs clock hmem hfail hcrit hfb
    rw [Orch.runSteps] at hmem ⊢
    cases hc : get_step_config cfg name with
    | none => simp [hc] at hmem
    | some sc =>
      simp only [hc] at hmem ⊢
      by_cases he : sc.enabled
      case neg =>
        simp only [he, Bool.false_eq_true, if_false] at hmem ⊢
        exact ih _ _ _ _ hmem hfail hcrit hfb
      case pos =>
        simp only [he, if_true] at hmem ⊢
        cases hr : (Orch.execute_step_with_retry cfg bs sc ctx world clock).result with
        | ok out =>
          simp only [hr] at hmem ⊢
          simp only [List.mem_cons] at hmem
          rcases hmem with hhead | htail
          · rw [hhead] at hfail
            simp at hfail
          · have h := ih _ _ _ _ htail hfail hcrit hfb
            refine ⟨h.1, ?_⟩
            rw [getLast?_cons_ne_nil _ _ (ne_nil_of_getLast?_eq_some h.2)]
            exact h.2
        | error e =>
          simp only [hr] at hmem ⊢
          by_cases hcr : cfg.routing.default_flow.contains name
          case pos =>
            simp only [hcr, if_true] at hmem ⊢
            cases hfbd : get_fallback_data cfg name with
            | none =>
              simp only [hfbd] at hmem ⊢
              simp only [List.mem_cons, List.not_mem_nil, or_false] at hmem
              rw [hmem]
              exact ⟨⟨e.message, rfl, rfl⟩, rfl⟩
            | some fb =>
              simp only [hfbd] at hmem ⊢
              by_cases hemp : fb.isEmpty
              case pos =>
                simp only [hemp, if_true] at hmem ⊢
                simp only [List.mem_cons, List.not_mem_nil, or_false] at hmem
                rw [hmem]
                exact ⟨⟨e.message, rfl, rfl⟩, rfl⟩
              case neg =>
                simp only [hemp, Bool.false_eq_true, if_false] at hmem ⊢
                simp only [List.mem_cons] at hmem
                rcases hmem with hhead | htail
                · exfalso
                  have : fallbackUsable cfg r.name = true := by
                    rw [hhead]
                    simp [fallbackUsable, hfbd, hemp]
                  rw [this] at hfb
                  simp at hfb
                · have h := ih _ _ _ _ htail hfail hcrit hfb
                  refine ⟨h.1, ?_⟩
                  rw [getLast?_cons_ne_nil _ _ (ne_nil_of_getLast?_eq_some h.2)]
                  exact h.2
          case neg =>
            simp only [hcr, Bool.false_eq_true, if_false] at hmem ⊢
            simp only [List.mem_cons] at hmem
            rcases hmem with hhead | htail
            · exfalso
              rw [hhead] at hcrit
              exact hcr hcrit
            · have h := ih _ _ _ _ htail hfail hcrit hfb
              refine ⟨h.1, ?_⟩
              rw [getLast?_cons_ne_nil _ _ (ne_nil_of_getLast?_eq_some h.2)]
              exact h.2

/-- Keys already present in the accumulated context survive the rest of
the async step loop (merges only add or overwrite, never remove). -/
theorem runSteps_ctx_mono (cfg : Config) :
    ∀ (seq : List String) (ctx : Ctx) (world : World) (bs : Breakers) (clock : Nat)
      (k : String),
      ctxHas ctx k = true →
      ctxHas (Orch.runSteps cfg seq ctx world bs clock).ctx k = true := by
  intro seq
  induction seq with
  | nil =>
    intro ctx world bs clock k hk
    simpa [Orch.runSteps] using hk
  | cons name rest ih =>
    intro ctx world bs clock k hk
    rw [Orch.runSteps]
    cases hc : get_step_config cfg name with
    | none => simpa [hc] using hk
    | some sc =>
      simp only [hc]
      by_cases he : sc.enabled
      case neg =>
        simp only [he, Bool.false_eq_true, if_false]
        exact ih _ _ _ _ _ hk
      case pos =>
        simp only [he, if_true]
        cases hr : (Orch.execute_step_with_retry cfg bs sc ctx world clock).result with
        | ok out =>
          simp only [hr]
          exact ih _ _ _ _ _ (ctxUpdate_mono _ _ _ hk)
        | error e =>
          simp only [hr]
          by_cases hcr : cfg.routing.default_flow.contains name
          case pos =>
            simp only [hcr, if_true]
            cases hfbd : get_fallback_data cfg name with
            | none => simpa [hfbd] using hk
            | some fb =>
              simp only [hfbd]
              by_cases hemp : fb.isEmpty
              case pos => simpa [hemp] using hk
              case neg =>
                simp only [hemp, Bool.false_eq_true, if_false]
                exact ih _ _ _ _ _ (ctxUpdate_mono _ _ _ hk)
          case neg =>
            simp only [hcr, Bool.false_eq_true, if_false]
            exact ih _ _ _ _ _ hk

/-- When the async step loop terminates normally, every enabled, known,
critical step of the sequence has a record that either completed or
failed with a usable fallback. -/
theorem runSteps_ok_critical_covered (cfg : Config) :
    ∀ (seq : List String) (ctx : Ctx) (world : World) (bs : Breakers) (clock : Nat),
      (Orch.runSteps cfg seq ctx world bs clock).outcome = .ok →
      ∀ name ∈ seq, ∀ sc, get_step_config cfg name = some sc → sc.enabled = true →
        cfg.routing.default_flow.contains name = true →
        ∃ r ∈ (Orch.runSteps cfg seq ctx world bs clock).steps, r.name = name ∧
          (r.status = .completed ∨
            (r.status = .failed ∧ fallbackUsable cfg name = true)) := by
  intro seq
  induction seq with
  | nil =>
    intro ctx world bs clock hok name hmem
    simp at hmem
  | cons name0 rest ih =>
    intro ctx world bs clock hok name hmem sc hsc hen hcrit
    rw [Orch.runSteps] at hok ⊢
    cases hc : get_step_config cfg name0 with
    | none => simp [hc] at hok
    | some sc0 =>
      simp only [hc] at hok ⊢
      by_cases he : sc0.enabled
      case neg =>
        simp only [he, Bool.false_eq_true, if_false] at hok ⊢
        rcases List.mem_cons.mp hmem with hh | ht
        · exfalso
          rw [hh] at hsc
          rw [hsc] at hc
          injection hc with hc0
          rw [hc0] at hen
          rw [hen] at he
          exact he rfl
        · exact ih _ _ _ _ hok name ht sc hsc hen hcrit
      case pos =>
        simp only [he, if_true] at hok ⊢
        cases hr : (Orch.execute_step_with_retry cfg bs sc0 ctx world clock).result with
        | ok out =>
          simp only [hr] at hok ⊢
          rcases List.mem_cons.mp hmem with hh | ht
          · subst hh
            refine ⟨_, List.mem_cons_self _ _, rfl, Or.inl rfl⟩
          · obtain ⟨r, hrmem, hrname, hrst⟩ := ih _ _ _ _ hok name ht sc hsc hen hcrit
            exact ⟨r, List.mem_cons_of_mem _ hrmem, hrname, hrst⟩
        | error e =>
          simp only [hr] at hok ⊢
          by_cases hcr : cfg.routing.default_flow.contains name0
          case pos =>
            simp only [hcr, if_true] at hok ⊢
            cases hfbd : get_fallback_data cfg name0 with
            | none => simp [hfbd] at hok
            | some fb =>
              simp only [hfbd] at hok ⊢
              by_cases hemp : fb.isEmpty
              case pos => simp [hemp] at hok
              case neg =>
                simp only [hemp, Bool.false_eq_true, if_false] at hok ⊢
                rcases List.mem_cons.mp hmem with hh | ht
                · subst hh
                  refine ⟨_, List.mem_cons_self _ _, rfl,
                    Or.inr ⟨rfl, by simp [fallbackUsable, hfbd, hemp]⟩⟩
                · obtain ⟨r, hrmem, hrname, hrst⟩ := ih _ _ _ _ hok name ht sc hsc hen hcrit
                  exact ⟨r, List.mem_cons_of_mem _ hrmem, hrname, hrst⟩
          case neg =>
            simp only [hcr, Bool.false_eq_true, if_false] at hok ⊢
            rcases List.mem_cons.mp hmem with hh | ht
            · exfalso
              rw [hh] at hcrit
              exact hcr hcrit
            · obtain ⟨r, hrmem, hrname, hrst⟩ := ih _ _ _ _ hok name ht sc hsc hen hcrit
              exact ⟨r, List.mem_cons_of_mem _ hrmem, hrname, hrst⟩

/-- When the async step loop terminates normally, the fallback payload of
every failed critical step has all of its keys present in the final
accumulated context. -/
theorem runSteps_ok_fallback_keys (cfg : Config) :
    ∀ (seq : List String) (ctx : Ctx) (world : World) (bs : Breakers) (clock : Nat),
      (Orch.runSteps cfg seq ctx world bs clock).outcome = .ok →
      ∀ r ∈ (Orch.runSteps cfg seq ctx world bs clock).steps,
        r.status = .failed →
        cfg.routing.default_flow.contains r.name = true →
        ∀ fb, get_fallback_data cfg r.name = some fb →
          ∀ kv ∈ fb, ctxHas (Orch.runSteps cfg seq ctx world bs clock).ctx kv.fst = true := by
  intro seq
  induction seq with
  | nil =>
    intro ctx world bs clock hok r hmem
    simp [Orch.runSteps] at hmem
  | cons name rest ih =>
    intro ctx world bs clock hok r hmem hfail hcrit fb hfb kv hkv
    rw [Orch.runSteps] at hok hmem ⊢
    cases hc : get_step_config cfg name with
    | none => simp [hc] at hok
    | some sc =>
      simp only [hc] at hok hmem ⊢
      by_cases he : sc.enabled
      case neg =>
        simp only [he, Bool.false_eq_true, if_false] at hok hmem ⊢
        exact ih _ _ _ _ hok r hmem hfail hcrit fb hfb kv hkv
      case pos =>
        simp only [he, if_true] at hok hmem ⊢
        cases hr : (Orch.execute_step_with_retry cfg bs sc ctx world clock).result with
        | ok out =>
          simp only [hr] at hok hmem ⊢
          rcases List.mem_cons.mp hmem with hh | ht
          · rw [hh] at hfail
            simp at hfail
          · exact ih _ _ _ _ hok r ht hfail hcrit fb hfb kv hkv
        | error e =>
          simp only [hr] at hok hmem ⊢
          by_cases hcr : cfg.routing.default_flow.contains name
          case pos =>
            simp only [hcr, if_true] at hok hmem ⊢
            cases hfbd : get_fallback_data cfg name with
            | none => simp [hfbd] at hok
            | some fb0 =>
              simp only [hfbd] at hok hmem ⊢
              by_cases hemp : fb0.isEmpty
              case pos => simp [hemp] at hok
              case neg =>
                simp only [hemp, Bool.false_eq_true, if_false] at hok hmem ⊢
                rcases List.mem_cons.mp hmem with hh | ht
                · have hname : r.name = name := by rw [hh]
                  rw [hname] at hfb
                  rw [hfb] at hfbd
                  injection hfbd with hfb0
                  subst hfb0
                  exact runSteps_ctx_mono cfg _ _ _ _ _ _
                    (ctxUpdate_has_of_mem _ _ _ hkv)
                · exact ih _ _ _ _ hok r ht hfail hcrit fb hfb kv hkv
          case neg =>
            simp only [hcr, Bool.false_eq_true, if_false] at hok hmem ⊢
            rcases List.mem_cons.mp hmem with hh | ht
            · exfalso
              rw [hh] at hcrit
              exact hcr hcrit
            · exact ih _ _ _ _ hok r ht hfail hcrit fb hfb kv hkv

/-- Every record the async step loop appends is for an enabled, known step
and is never `SKIPPED`: disabled steps leave no record at all. -/
theorem runSteps_no_skipped (cfg : Config) :
    ∀ (seq : List String) (ctx : Ctx) (world : World) (bs : Breakers) (clock : Nat),
      ∀ r ∈ (Orch.runSteps cfg seq ctx world bs clock).steps,
        r.status ≠ .skipped ∧
        ∃ sc, get_step_config cfg r.name = some sc ∧ sc.enabled = true := by
  intro seq
  induction seq with
  | nil =>
    intro ctx world bs clock r hmem
    simp [Orch.runSteps] at hmem
  | cons name rest ih =>
    intro ctx world bs clock r hmem
    rw [Orch.runSteps] at hmem
    cases hc : get_step_config cfg name with
    | none => simp [hc] at hmem
    | some sc =>
      simp only [hc] at hmem
      by_cases he : sc.enabled
      case neg =>
        simp only [he, Bool.false_eq_true, if_false] at hmem
        exact ih _ _ _ _ r hmem
      case pos =>
        simp only [he, if_true] at hmem
        cases hr : (Orch.execute_step_with_retry cfg bs sc ctx world clock).result with
        | ok out =>
          simp only [hr] at hmem
          rcases List.mem_cons.mp hmem with hh | ht
          · subst hh
            exact ⟨by simp, sc, hc, he⟩
          · exact ih _ _ _ _ r ht
        | error e =>
          simp only [hr] at hmem
          by_cases hcr : cfg.routing.default_flow.contains name
          case pos =>
            simp only [hcr, if_true] at hmem
            cases hfbd : get_fallback_data cfg name with
            | none =>
              simp only [hfbd, List.mem_cons, List.not_mem_nil, or_false] at hmem
              subst hmem
              exact ⟨by simp, sc, hc, he⟩
            | some fb =>
              simp only [hfbd] at hmem
              by_cases hemp : fb.isEmpty
              case pos =>
                simp only [hemp, if_true, List.mem_cons, List.not_mem_nil,
                  or_false] at hmem
                subst hmem
                exact ⟨by simp, sc, hc, he⟩
              case neg =>
                simp only [hemp, Bool.false_eq_true, if_false] at hmem
                rcases List.mem_cons.mp hmem with hh | ht
                · subst hh
                  exact ⟨by simp, sc, hc, he⟩
                · exact ih _ _ _ _ r ht
          case neg =>
            simp only [hcr, Bool.false_eq_true, if_false] at hmem
            rcases List.mem_cons.mp hmem with hh | ht
            · subst hh
              exact ⟨by simp, sc, hc, he⟩
            · exact ih _ _ _ _ r ht

/-- Same for the sync step loop: no `SKIPPED` record is ever appended, and
disabled or unknown steps leave no record. -/
theorem simple_runSteps_no_skipped (cfg : Config) (eid : String) (input : Ctx) :
    ∀ (seq : List String) (ctx : Ctx) (world : World),
      ∀ r ∈ (SimpleOrch.runSteps cfg eid input seq ctx world).steps,
        r.status ≠ .skipped ∧
        ∃ sc, get_step_config cfg r.name = some sc ∧ sc.enabled = true := by
  intro seq
  induction seq with
  | nil =>
    intro ctx world r hmem
    simp [SimpleOrch.runSteps] at hmem
  | cons name rest ih =>
    intro ctx world r hmem
    rw [SimpleOrch.runSteps] at hmem
    cases hc : get_step_config cfg name with
    | none =>
      simp only [hc] at hmem
      exact ih _ _ r hmem
    | some sc =>
      simp only [hc] at hmem
      by_cases he : sc.enabled
      case neg =>
        simp only [he, Bool.false_eq_true, if_false] at hmem
        exact ih _ _ r hmem
      case pos =>
        simp only [he, if_true] at hmem
        cases hr : (SimpleOrch.execute_step_with_retry sc ctx world).result with
        | ok out =>
          simp only [hr] at hmem
          rcases List.mem_cons.mp hmem with hh | ht
          · subst hh
            exact ⟨by simp, sc, hc, he⟩
          · exact ih _ _ r ht
        | error e =>
          simp only [hr] at hmem
          rcases List.mem_cons.mp hmem with hh | ht
          · subst hh
            exact ⟨by simp, sc, hc, he⟩
          · exact ih _ _ r ht

/-! ### Equivalence of the two step executors and loops on all-success runs -/

/-- The two attempt loops return the same result and consume the HTTP
world identically (they differ only in sleeps and breaker bookkeeping,
which do not influence the result). -/
theorem retryGo_agree (cfg : Config) (sc : StepConfig) (data : Ctx) (now : Nat) :
    ∀ left attempt bs world tr tr',
      (Orch.retryGo cfg sc data now attempt left bs world tr).result
        = (SimpleOrch.retryGo sc data left world tr').result ∧
      (Orch.retryGo cfg sc data now attempt left bs world tr).world
        = (SimpleOrch.retryGo sc data left world tr').world := by
  intro left
  induction left with
  | zero =>
    intro attempt bs world tr tr'
    rw [Orch.retryGo, SimpleOrch.retryGo]
    rcases hss : (execute_single_step sc data world).fst with e | out <;> simp [hss]
  | succ left' ih =>
    intro attempt bs world tr tr'
    rw [Orch.retryGo, SimpleOrch.retryGo]
    rcases hss : (execute_single_step sc data world).fst with e | out
    · simp only [hss]
      exact ih (attempt + 1) bs (execute_single_step sc data world).snd.fst _ _
    · simp [hss]

/-- The function `breakerCheck` never blocks when the breaker is disabled
in configuration. -/
theorem breakerCheck_disabled (cfg : Config) (b : Breaker) (now : Nat)
    (hcb : cfg.error_handling.circuit_breaker.enabled = false) :
    breakerCheck cfg b now = (false, b) := by
  simp [breakerCheck, hcb]

/-- With the circuit breaker disabled, the two step executors agree on
result and world consumption. -/
theorem esr_agree (cfg : Config) (bs : Breakers) (sc : StepConfig)
    (data : Ctx) (world : World) (now : Nat)
    (hcb : cfg.error_handling.circuit_breaker.enabled = false) :
    (Orch.execute_step_with_retry cfg bs sc data world now).result
      = (SimpleOrch.execute_step_with_retry sc data world).result ∧
    (Orch.execute_step_with_retry cfg bs sc data world now).world
      = (SimpleOrch.execute_step_with_retry sc data world).world := by
  have hf : (is_circuit_open cfg bs sc.component now).fst = false := by
    rw [is_circuit_open_fst, breakerCheck_disabled cfg _ now hcb]
  rw [Orch.esr_not_blocked cfg bs sc data world now hf]
  unfold SimpleOrch.execute_step_with_retry
  exact retryGo_agree cfg sc data now sc.retry_count 0 _ world Trace.nil Trace.nil

/-- With the circuit breaker disabled, on a run where the async loop
terminated normally with every step record completed, the sync loop
produces exactly the same records, final context and world. -/
theorem runSteps_agree (cfg : Config) (eid : String) (input : Ctx)
    (hcb : cfg.error_handling.circuit_breaker.enabled = false) :
    ∀ (seq : List String) (ctx : Ctx) (world : World) (bs : Breakers) (clock : Nat),
      (Orch.runSteps cfg seq ctx world bs clock).outcome = .ok →
      (∀ r ∈ (Orch.runSteps cfg seq ctx world bs clock).steps,
        r.status = .completed) →
      (SimpleOrch.runSteps cfg eid input seq ctx world).steps
          = (Orch.runSteps cfg seq ctx world bs clock).steps ∧
      (SimpleOrch.runSteps cfg eid input seq ctx world).ctx
          = (Orch.runSteps cfg seq ctx world bs clock).ctx ∧
      (SimpleOrch.runSteps cfg eid input seq ctx world).world
          = (Orch.runSteps cfg seq ctx world bs clock).world := by
  intro seq
  induction seq with
  | nil =>
    intro ctx world bs clock hok hall
    exact ⟨rfl, rfl, rfl⟩
  | cons name rest ih =>
    intro ctx world bs clock hok hall
    rw [Orch.runSteps] at hok hall ⊢
    rw [SimpleOrch.runSteps]
    cases hc : get_step_config cfg name with
    | none => simp [hc] at hok
    | some sc =>
      simp only [hc] at hok hall ⊢
      by_cases he : sc.enabled
      case neg =>
        simp only [he, Bool.false_eq_true, if_false] at hok hall ⊢
        exact ih _ _ _ _ hok hall
      case pos =>
        simp only [he, if_true] at hok hall ⊢
        cases hr : (Orch.execute_step_with_retry cfg bs sc ctx world clock).result with
        | error e =>
          exfalso
          simp only [hr] at hall
          by_cases hcr : cfg.routing.default_flow.contains name
          · simp only [hcr, if_true] at hall
            cases hfbd : get_fallback_data cfg name with
            | none =>
              simp only [hfbd, List.mem_cons] at hall
              have := hall _ (Or.inl rfl)
              simp at this
            | some fb =>
              simp only [hfbd] at hall
              by_cases hemp : fb.isEmpty
              · simp only [hemp, if_true, List.mem_cons] at hall
                have := hall _ (Or.inl rfl)
                simp at this
              · simp only [hemp, Bool.false_eq_true, if_false, List.mem_cons] at hall
                have := hall _ (Or.inl rfl)
                simp at this
          · simp only [hcr, Bool.false_eq_true, if_false, List.mem_cons] at hall
            have := hall _ (Or.inl rfl)
            simp at this
        | ok out =>
          have hag := esr_agree cfg bs sc ctx world clock hcb
          have hsr : (SimpleOrch.execute_step_with_retry sc ctx world).result
              = .ok out := by
            rw [← hag.1, hr]
          have hsw : (SimpleOrch.execute_step_with_retry sc ctx world).world
              = (Orch.execute_step_with_retry cfg bs sc ctx world clock).world :=
            hag.2.symm
          simp only [hr] at hok hall ⊢
          simp only [hsr, hsw]
          have hall' : ∀ r ∈ (Orch.runSteps cfg rest (ctxUpdate ctx out)
              (Orch.execute_step_with_retry cfg bs sc ctx world clock).world
              (Orch.execute_step_with_retry cfg bs sc ctx world clock).breakers
              (clock + 1)).steps, r.status = .completed := by
            intro r hrmem
            exact hall r (List.mem_cons_of_mem _ hrmem)
          have h := ih (ctxUpdate ctx out)
            (Orch.execute_step_with_retry cfg bs sc ctx world clock).world
            (Orch.execute_step_with_retry cfg bs sc ctx world clock).breakers
            (clock + 1) hok hall'
          exact ⟨by rw [h.1], h.2.1, h.2.2⟩

/-! ### Claims -/

/-- Claim C1, corrected (amended form): when the circuit breaker does not
block and at least one required field is absent from the context, the
executor surfaces a validation error and never issues an HTTP request —
but, contrary to the original claim, the validation error is *not*
surfaced immediately: the retry loop treats it like any other exception,
running all `retry_count + 1` attempts and sleeping `retry_count` times
before surfacing it. -/
theorem C1_thm :
    ∀ (cfg : Config) (bs : Breakers) (sc : StepConfig) (data : Ctx)
      (world : World) (now : Nat),
      (is_circuit_open cfg bs sc.component now).fst = false →
      (missingFields sc data).isEmpty = false →
      (Orch.execute_step_with_retry cfg bs sc data world now).result
          = .error (.validation (missingFields sc data)) ∧
      (Orch.execute_step_with_retry cfg bs sc data world now).world = world ∧
      (Orch.execute_step_with_retry cfg bs sc data world now).trace.http_calls = 0 ∧
      (Orch.execute_step_with_retry cfg bs sc data world now).trace.calls
          = sc.retry_count + 1 ∧
      (Orch.execute_step_with_retry cfg bs sc data world now).trace.sleeps.length
          = sc.retry_count := by
  intro cfg bs sc data world now hopen hmiss
  rw [Orch.esr_not_blocked cfg bs sc data world now hopen]
  have h := Orch.retryGo_validation cfg sc data now hmiss sc.retry_count 0
    (is_circuit_open cfg bs sc.component now).snd world Trace.nil
  refine ⟨h.1, h.2.1, ?_, ?_, ?_⟩
  · rw [h.2.2.1]
    rfl
  · rw [h.2.2.2.1]
    simp [Trace.nil]
  · rw [h.2.2.2.2]
    simp [Trace.nil]

/-- Witness for C1: at the concrete fixture (missing `message_text`,
`retry_count = 1`), the hypotheses hold and the amended conclusion follows
by applying the theorem. -/
theorem C1_thm_witness :
    (is_circuit_open cfgRetry bsInit stepSummarize.component 0).fst = false ∧
    (missingFields stepSummarize []).isEmpty = false ∧
    (Orch.execute_step_with_retry cfgRetry bsInit stepSummarize [] [] 0).result
        = .error (.validation (missingFields stepSummarize [])) ∧
    (Orch.execute_step_with_retry cfgRetry bsInit stepSummarize [] [] 0).world = [] ∧
    (Orch.execute_step_with_retry cfgRetry bsInit stepSummarize [] [] 0).trace.http_calls = 0 ∧
    (Orch.execute_step_with_retry cfgRetry bsInit stepSummarize [] [] 0).trace.calls
        = stepSummarize.retry_count + 1 ∧
    (Orch.execute_step_with_retry cfgRetry bsInit stepSummarize [] [] 0).trace.sleeps.length
        = stepSummarize.retry_count :=
  ⟨by decide, by decide,
    C1_thm cfgRetry bsInit stepSummarize [] [] 0 (by decide) (by decide)⟩

/-- Counterexample to claim C1 as stated: with `retry_count = 1` and the
required `message_text` absent, the executor makes two call attempts and
sleeps the configured 2-second delay between them before surfacing the
validation error — it does retry and sleep, contradicting "fails
immediately ... not retried ... does not sleep/retry". (No HTTP request
is issued, confirming that half of the claim.) -/
theorem C1_counterexample :
    (Orch.execute_step_with_retry cfgRetry bsInit stepSummarize [] [] 0).result
        = .error (.validation ["message_text"]) ∧
    (Orch.execute_step_with_retry cfgRetry bsInit stepSummarize [] [] 0).trace
        = { calls := 2, http_calls := 0, sleeps := [2] } :=
  ⟨by decide, by decide⟩

/-- Claim C2: if an execution's step list contains a failed record for a
step of the default (critical) flow with no fallback configured, the
execution status is FAILED, the top-level error is the critical-failure
message naming that step, and the failed record is the last one in the
step list (no later step ran). -/
theorem C2_thm :
    ∀ (cfg : Config) (input : Ctx) (mode : PipelineMode) (eid : String)
      (world : World) (bs : Breakers) (clock : Nat) (r : StepRec),
      r ∈ (Orch.execute_pipeline cfg input mode eid world bs clock).execution.steps →
      r.status = .failed →
      cfg.routing.default_flow.contains r.name = true →
      get_fallback_data cfg r.name = none →
      (Orch.execute_pipeline cfg input mode eid world bs clock).execution.status
          = .failed ∧
      (∃ m, (Orch.execute_pipeline cfg input mode eid world bs clock).execution.error
          = some (criticalErrorMsg r.name m) ∧ r.error = some m) ∧
      (Orch.execute_pipeline cfg input mode eid world bs clock).execution.steps.getLast?
          = some r := by
  intro cfg input mode eid world bs clock r hmem hfail hcrit hnofb
  have hfb : fallbackUsable cfg r.name = false := by simp [fallbackUsable, hnofb]
  have hmem' : r ∈ (Orch.runSteps cfg (get_step_sequence cfg mode) input world bs
      (clock + 1)).steps := hmem
  obtain ⟨⟨m, hm, hre⟩, hlast⟩ :=
    runSteps_critical_stops cfg r _ input world bs (clock + 1) hmem' hfail hcrit hfb
  refine ⟨?_, ⟨m, ?_, hre⟩, hlast⟩
  · simp [Orch.execute_pipeline, hm]
  · simp [Orch.execute_pipeline, hm]

/-- Witness for C2 at the concrete fixture: `summarize` fails both
attempts, has no fallback, and the execution is FAILED with the critical
error naming it, the failed record being last. -/
theorem C2_thm_witness :
    stepRecC2 ∈ (Orch.execute_pipeline cfgRetry [("message_text", "hi")] .full "e"
        [.failure "b1", .failure "b2"] bsInit 0).execution.steps ∧
    stepRecC2.status = .failed ∧
    cfgRetry.routing.default_flow.contains stepRecC2.name = true ∧
    get_fallback_data cfgRetry stepRecC2.name = none ∧
    ((Orch.execute_pipeline cfgRetry [("message_text", "hi")] .full "e"
        [.failure "b1", .failure "b2"] bsInit 0).execution.status = .failed ∧
      (∃ m, (Orch.execute_pipeline cfgRetry [("message_text", "hi")] .full "e"
          [.failure "b1", .failure "b2"] bsInit 0).execution.error
          = some (criticalErrorMsg stepRecC2.name m) ∧ stepRecC2.error = some m) ∧
      (Orch.execute_pipeline cfgRetry [("message_text", "hi")] .full "e"
        [.failure "b1", .failure "b2"] bsInit 0).execution.steps.getLast?
        = some stepRecC2) :=
  ⟨by decide, by decide, by decide, by decide,
    C2_thm cfgRetry [("message_text", "hi")] .full "e"
      [.failure "b1", .failure "b2"] bsInit 0 stepRecC2
      (by decide) (by decide) (by decide) (by decide)⟩

/-- Claim C4: one executor invocation makes at most `retry_count + 1` call
attempts, and when it surfaces a non-breaker failure (all attempts
exhausted) the component's breaker failure count has been incremented by
exactly one. -/
theorem C4_thm :
    ∀ (cfg : Config) (bs : Breakers) (sc : StepConfig) (data : Ctx)
      (world : World) (now : Nat),
      (Orch.execute_step_with_retry cfg bs sc data world now).trace.calls
          ≤ sc.retry_count + 1 ∧
      ∀ e, (Orch.execute_step_with_retry cfg bs sc data world now).result
            = .error e →
        (∀ c, e ≠ .breaker_open c) →
        ((Orch.execute_step_with_retry cfg bs sc data world now).breakers
            sc.component).failures = (bs sc.component).failures + 1 := by
  intro cfg bs sc data world now
  by_cases hopen : (is_circuit_open cfg bs sc.component now).fst = true
  · rw [Orch.esr_blocked cfg bs sc data world now hopen]
    refine ⟨by simp [Trace.nil], ?_⟩
    intro e he hne
    exfalso
    simp at he
    exact hne sc.component he.symm
  · have hopen' : (is_circuit_open cfg bs sc.component now).fst = false := by
      cases h : (is_circuit_open cfg bs sc.component now).fst
      · rfl
      · exact absurd h hopen
    rw [Orch.esr_not_blocked cfg bs sc data world now hopen']
    constructor
    · have := Orch.retryGo_calls cfg sc data now sc.retry_count 0
        (is_circuit_open cfg bs sc.component now).snd world Trace.nil
      simpa [Trace.nil] using this
    · intro e he hne
      rcases Orch.retryGo_cases cfg sc data now sc.retry_count 0
          (is_circuit_open cfg bs sc.component now).snd world Trace.nil with
        ⟨out, hok, _⟩ | ⟨e', herr, _, hbrk⟩
      · rw [hok] at he
        cases he
      · rw [hbrk, record_failure_at, is_circuit_open_snd_at]
        simp [breakerRecord, breakerCheck_failures]

/-- Witness for C4: `summarize` fails both attempts on the two-failure
world; the surfaced error is the last HTTP error and the `seeya` breaker
count goes from 0 to 1. -/
theorem C4_thm_witness :
    (Orch.execute_step_with_retry cfgRetry bsInit stepSummarize
        [("message_text", "hi")] [.failure "b1", .failure "b2"] 0).result
        = .error (.http "b2") ∧
    (Orch.execute_step_with_retry cfgRetry bsInit stepSummarize
        [("message_text", "hi")] [.failure "b1", .failure "b2"] 0).trace.calls
        ≤ stepSummarize.retry_count + 1 ∧
    ((Orch.execute_step_with_retry cfgRetry bsInit stepSummarize
        [("message_text", "hi")] [.failure "b1", .failure "b2"] 0).breakers
        stepSummarize.component).failures
        = (bsInit stepSummarize.component).failures + 1 :=
  ⟨by decide,
    (C4_thm cfgRetry bsInit stepSummarize [("message_text", "hi")]
      [.failure "b1", .failure "b2"] 0).1,
    (C4_thm cfgRetry bsInit stepSummarize [("message_text", "hi")]
      [.failure "b1", .failure "b2"] 0).2 (.http "b2") (by decide)
      (fun c h => by cases h)⟩

/-- Claim C5: `execute_pipeline` always returns a finalized record: the
status is terminal (COMPLETED, or FAILED with the error set), the end
time and total duration are set, and the record is appended to the
execution history — no execution is left IN_PROGRESS. -/
theorem C5_thm :
    ∀ (cfg : Config) (input : Ctx) (mode : PipelineMode) (eid : String)
      (world : World) (bs : Breakers) (clock : Nat)
      (history : List PipelineExecution),
      ((Orch.execute_pipeline cfg input mode eid world bs clock).execution.status
          = .completed ∨
        ((Orch.execute_pipeline cfg input mode eid world bs clock).execution.status
            = .failed ∧
          (Orch.execute_pipeline cfg input mode eid world bs clock).execution.error
            ≠ none)) ∧
      (Orch.execute_pipeline cfg input mode eid world bs clock).execution.end_time
          ≠ none ∧
      (Orch.execute_pipeline cfg input mode eid world bs clock).execution.total_duration_ms
          ≠ none ∧
      (Orch.execute_pipeline_hist cfg input mode eid world bs clock history).snd
          = history ++
            [(Orch.execute_pipeline cfg input mode eid world bs clock).execution] ∧
      (Orch.execute_pipeline cfg input mode eid world bs clock).execution.status
          ≠ .in_progress := by
  intro cfg input mode eid world bs clock history
  cases ho : (Orch.runSteps cfg (get_step_sequence cfg mode) input world bs
      (clock + 1)).outcome <;>
    simp [Orch.execute_pipeline, Orch.execute_pipeline_hist, ho]

/-- Claim C3: with the breaker enabled — (i) `failure_threshold`
consecutive recorded failures starting from failure count 0 leave the
breaker open; (ii) a consultation while `now - last_failure` has not
exceeded `recovery_timeout` reports blocked, and the executor then fails
with a breaker-open error making zero call attempts, zero HTTP requests
and consuming nothing from the world; (iii) a consultation after
`recovery_timeout` has elapsed transitions the breaker to half-open and
does not block; (iv) a subsequent successful step execution resets the
component's breaker to closed with failure count 0. -/
theorem C3_thm (cfg : Config)
    (henabled : cfg.error_handling.circuit_breaker.enabled = true) :
    (∀ (b : Breaker) (now n : Nat), b.failures = 0 →
      n = cfg.error_handling.circuit_breaker.failure_threshold → 1 ≤ n →
      (recordIter cfg b now n).state = .open_) ∧
    (∀ (b : Breaker) (now t : Nat), b.state = .open_ → b.last_failure = some t →
      ¬ (now - t > cfg.error_handling.circuit_breaker.recovery_timeout) →
      (breakerCheck cfg b now).fst = true) ∧
    (∀ (bs : Breakers) (sc : StepConfig) (data : Ctx) (world : World) (now : Nat),
      (is_circuit_open cfg bs sc.component now).fst = true →
      (Orch.execute_step_with_retry cfg bs sc data world now).result
          = .error (.breaker_open sc.component) ∧
      (Orch.execute_step_with_retry cfg bs sc data world now).trace.calls = 0 ∧
      (Orch.execute_step_with_retry cfg bs sc data world now).trace.http_calls = 0 ∧
      (Orch.execute_step_with_retry cfg bs sc data world now).world = world) ∧
    (∀ (b : Breaker) (now t : Nat), b.state = .open_ → b.last_failure = some t →
      now - t > cfg.error_handling.circuit_breaker.recovery_timeout →
      breakerCheck cfg b now = (false, { b with state := .half_open })) ∧
    (∀ (bs : Breakers) (sc : StepConfig) (data : Ctx) (world : World) (now : Nat)
      (out : Ctx),
      (Orch.execute_step_with_retry cfg bs sc data world now).result = .ok out →
      ((Orch.execute_step_with_retry cfg bs sc data world now).breakers
          sc.component).failures = 0 ∧
      ((Orch.execute_step_with_retry cfg bs sc data world now).breakers
          sc.component).state = .closed) := by
  refine ⟨?_, ?_, ?_, ?_, ?_⟩
  · intro b now n hb0 hn h1
    obtain ⟨m, rfl⟩ : ∃ m, n = m + 1 := ⟨n - 1, by omega⟩
    have hcond : (recordIter cfg b now m).failures + 1
        ≥ cfg.error_handling.circuit_breaker.failure_threshold := by
      rw [recordIter_failures, hb0]
      omega
    simp only [recordIter, breakerRecord]
    rw [if_pos hcond]
  · intro b now t hst hlf hle
    obtain ⟨f, lf, st⟩ := b
    simp only at hst hlf
    subst hst
    subst hlf
    simp [breakerCheck, henabled, hle]
  · intro bs sc data world now hopen
    rw [Orch.esr_blocked cfg bs sc data world now hopen]
    exact ⟨rfl, rfl, rfl, rfl⟩
  · intro b now t hst hlf hgt
    obtain ⟨f, lf, st⟩ := b
    simp only at hst hlf
    subst hst
    subst hlf
    simp [breakerCheck, henabled, hgt]
  · intro bs sc data world now out hok
    by_cases hopen : (is_circuit_open cfg bs sc.component now).fst = true
    · rw [Orch.esr_blocked cfg bs sc data world now hopen] at hok
      cases hok
    · have hopen' : (is_circuit_open cfg bs sc.component now).fst = false := by
        cases h : (is_circuit_open cfg bs sc.component now).fst
        · rfl
        · exact absurd h hopen
      rw [Orch.esr_not_blocked cfg bs sc data world now hopen'] at hok ⊢
      rcases Orch.retryGo_cases cfg sc data now sc.retry_count 0
          (is_circuit_open cfg bs sc.component now).snd world Trace.nil with
        ⟨out', _, hrst⟩ | ⟨e', herr, _, _⟩
      · rw [hrst, reset_circuit_breaker_at]
        simp [breakerReset]
      · rw [herr] at hok
        cases hok

/-- Witness for C3 at the concrete fixture (threshold 2, recovery 60):
two recorded failures at time 10 open the breaker; at time 30 it blocks
and the executor fails without any attempt; at time 100 it half-opens;
and a successful execution resets the `seeya` breaker. -/
theorem C3_thm_witness :
    (recordIter cfgRetry Breaker.init 10 2).state = .open_ ∧
    (breakerCheck cfgRetry (recordIter cfgRetry Breaker.init 10 2) 30).fst = true ∧
    ((Orch.execute_step_with_retry cfgRetry bsOpenSeeya stepSummarize
        [("message_text", "hi")] [.success []] 30).result
        = .error (.breaker_open stepSummarize.component) ∧
      (Orch.execute_step_with_retry cfgRetry bsOpenSeeya stepSummarize
        [("message_text", "hi")] [.success []] 30).trace.calls = 0 ∧
      (Orch.execute_step_with_retry cfgRetry bsOpenSeeya stepSummarize
        [("message_text", "hi")] [.success []] 30).trace.http_calls = 0 ∧
      (Orch.execute_step_with_retry cfgRetry bsOpenSeeya stepSummarize
        [("message_text", "hi")] [.success []] 30).world = [.success []]) ∧
    breakerCheck cfgRetry (recordIter cfgRetry Breaker.init 10 2) 100
        = (false, { recordIter cfgRetry Breaker.init 10 2 with state := .half_open }) ∧
    (((Orch.execute_step_with_retry cfgRetry bsInit stepSummarize
        [("message_text", "hi")] [.success []] 0).breakers
        stepSummarize.component).failures = 0 ∧
      ((Orch.execute_step_with_retry cfgRetry bsInit stepSummarize
        [("message_text", "hi")] [.success []] 0).breakers
        stepSummarize.component).state = .closed) :=
  ⟨(C3_thm cfgRetry (by decide)).1 Breaker.init 10 2 (by decide) (by decide)
      (by decide),
    (C3_thm cfgRetry (by decide)).2.1 (recordIter cfgRetry Breaker.init 10 2)
      30 10 (by decide) (by decide) (by decide),
    (C3_thm cfgRetry (by decide)).2.2.1 bsOpenSeeya stepSummarize
      [("message_text", "hi")] [.success []] 30 (by decide),
    (C3_thm cfgRetry (by decide)).2.2.2.1 (recordIter cfgRetry Breaker.init 10 2)
      100 10 (by decide) (by decide) (by decide),
    (C3_thm cfgRetry (by decide)).2.2.2.2 bsInit stepSummarize
      [("message_text", "hi")] [.success []] 0 [] (by decide)⟩

/-- Claim C7, corrected (amended form): for every reachable breaker
state — `open` implies the failure count has reached the threshold; once
`recovery_timeout` has elapsed, it is the next *consultation* (not the
passage of time) that transitions an open breaker to half-open, allowing
one trial; reset on success yields closed with zero failures; and a
recorded failure from half-open reopens the breaker. -/
theorem C7_thm (cfg : Config) (b : Breaker) (h : BreakerReach cfg b) :
    (b.state = .open_ →
      cfg.error_handling.circuit_breaker.failure_threshold ≤ b.failures) ∧
    (cfg.error_handling.circuit_breaker.enabled = true →
      ∀ now t, b.state = .open_ → b.last_failure = some t →
      now - t > cfg.error_handling.circuit_breaker.recovery_timeout →
      breakerCheck cfg b now = (false, { b with state := .half_open })) ∧
    ((breakerReset b).state = .closed ∧ (breakerReset b).failures = 0) ∧
    (b.state = .half_open → ∀ now, (breakerRecord cfg b now).state = .open_) := by
  refine ⟨?_, ?_, ⟨rfl, rfl⟩, ?_⟩
  · intro hop
    exact breakerReach_threshold cfg b h (Or.inl hop)
  · intro henabled now t hst hlf hgt
    obtain ⟨f, lf, st⟩ := b
    simp only at hst hlf
    subst hst
    subst hlf
    simp [breakerCheck, henabled, hgt]
  · intro hho now
    have hth := breakerReach_threshold cfg b h (Or.inr hho)
    simp only [breakerRecord]
    rw [if_pos (by omega)]

/-- Witness for C7: the breaker obtained by two recorded failures (at
time 0) is reachable and open with the threshold reached; at time 100 the
consultation half-opens it; and recording a failure from the half-open
state reopens it. -/
theorem C7_thm_witness :
    cfgRetry.error_handling.circuit_breaker.failure_threshold
        ≤ (recordIter cfgRetry Breaker.init 0 2).failures ∧
    breakerCheck cfgRetry (recordIter cfgRetry Breaker.init 0 2) 100
        = (false, { recordIter cfgRetry Breaker.init 0 2 with state := .half_open }) ∧
    ((breakerReset (recordIter cfgRetry Breaker.init 0 2)).state = .closed ∧
      (breakerReset (recordIter cfgRetry Breaker.init 0 2)).failures = 0) ∧
    (breakerRecord cfgRetry
        (breakerCheck cfgRetry (recordIter cfgRetry Breaker.init 0 2) 100).snd
        100).state = .open_ :=
  ⟨(C7_thm cfgRetry (recordIter cfgRetry Breaker.init 0 2)
      (BreakerReach.record _ 0 (BreakerReach.record _ 0 BreakerReach.init))).1
      (by decide),
    (C7_thm cfgRetry (recordIter cfgRetry Breaker.init 0 2)
      (BreakerReach.record _ 0 (BreakerReach.record _ 0 BreakerReach.init))).2.1
      (by decide) 100 0 (by decide) (by decide) (by decide),
    (C7_thm cfgRetry (recordIter cfgRetry Breaker.init 0 2)
      (BreakerReach.record _ 0 (BreakerReach.record _ 0 BreakerReach.init))).2.2.1,
    (C7_thm cfgRetry
      (breakerCheck cfgRetry (recordIter cfgRetry Breaker.init 0 2) 100).snd
      (BreakerReach.consult _ 100
        (BreakerReach.record _ 0 (BreakerReach.record _ 0 BreakerReach.init)))).2.2.2
      (by decide) 100⟩

/-- Counterexample to claim C7 as stated: after two failures recorded at
time 0 (threshold 2, recovery timeout 60) the breaker is open; nothing
runs until time 100, at which point `now - last_failure = 100 ≥ 60` while
the state is still `open` — the breaker state is a function of the
operations performed on it and does not change with the mere passage of
time, so "state == open implies now - last_failure < recovery_timeout at
every moment" is false.  (The lazy transition happens only at the next
consultation.) -/
theorem C7_counterexample :
    (recordIter cfgRetry Breaker.init 0 2).state = .open_ ∧
    (recordIter cfgRetry Breaker.init 0 2).last_failure = some 0 ∧
    cfgRetry.error_handling.circuit_breaker.recovery_timeout = 60 ∧
    ¬ (100 - 0 < 60) :=
  ⟨by decide, by decide, by decide, by decide⟩

/-- Claim C6, corrected (amended form): when an execution completes, every
*enabled* (and known) critical step of the resolved sequence has a record
that either completed or failed with a usable fallback payload, and the
keys of the fallback payload of every failed critical step are present in
the final accumulated context.  (The original claim fails for critical
steps that are disabled: they are skipped without reaching any status —
see the counterexample.) -/
theorem C6_thm :
    ∀ (cfg : Config) (input : Ctx) (mode : PipelineMode) (eid : String)
      (world : World) (bs : Breakers) (clock : Nat),
      (Orch.execute_pipeline cfg input mode eid world bs clock).execution.status
          = .completed →
      (∀ name ∈ get_step_sequence cfg mode, ∀ sc,
        get_step_config cfg name = some sc → sc.enabled = true →
        cfg.routing.default_flow.contains name = true →
        ∃ r ∈ (Orch.execute_pipeline cfg input mode eid world bs clock).execution.steps,
          r.name = name ∧
          (r.status = .completed ∨
            (r.status = .failed ∧ fallbackUsable cfg name = true))) ∧
      (∀ r ∈ (Orch.execute_pipeline cfg input mode eid world bs clock).execution.steps,
        r.status = .failed →
        cfg.routing.default_flow.contains r.name = true →
        ∀ fb, get_fallback_data cfg r.name = some fb →
        ∀ kv ∈ fb,
          ctxHas (Orch.execute_pipeline cfg input mode eid world bs clock).final_ctx
            kv.fst = true) := by
  intro cfg input mode eid world bs clock hst
  have hok : (Orch.runSteps cfg (get_step_sequence cfg mode) input world bs
      (clock + 1)).outcome = .ok := by
    cases ho : (Orch.runSteps cfg (get_step_sequence cfg mode) input world bs
        (clock + 1)).outcome with
    | ok => rfl
    | exec_failed m =>
      exfalso
      have hf : (Orch.execute_pipeline cfg input mode eid world bs
          clock).execution.status = .failed := by
        simp [Orch.execute_pipeline, ho]
      rw [hf] at hst
      simp at hst
    | exc m =>
      exfalso
      have hf : (Orch.execute_pipeline cfg input mode eid world bs
          clock).execution.status = .failed := by
        simp [Orch.execute_pipeline, ho]
      rw [hf] at hst
      simp at hst
  constructor
  · intro name hn sc hsc hen hcrit
    exact runSteps_ok_critical_covered cfg _ input world bs (clock + 1) hok
      name hn sc hsc hen hcrit
  · intro r hr hfail hcrit fb hfb kv hkv
    exact runSteps_ok_fallback_keys cfg _ input world bs (clock + 1) hok
      r hr hfail hcrit fb hfb kv hkv

/-- Witness for C6: with a fallback configured for `summarize`, the step
fails both attempts yet the execution completes, and the amended
conclusion follows by applying the theorem. -/
theorem C6_thm_witness :
    (Orch.execute_pipeline cfgFallback [("message_text", "hi")] .full "e"
        [.failure "x", .failure "x"] bsInit 0).execution.status = .completed ∧
    ((∀ name ∈ get_step_sequence cfgFallback .full, ∀ sc,
        get_step_config cfgFallback name = some sc → sc.enabled = true →
        cfgFallback.routing.default_flow.contains name = true →
        ∃ r ∈ (Orch.execute_pipeline cfgFallback [("message_text", "hi")] .full "e"
            [.failure "x", .failure "x"] bsInit 0).execution.steps,
          r.name = name ∧
          (r.status = .completed ∨
            (r.status = .failed ∧ fallbackUsable cfgFallback name = true))) ∧
      (∀ r ∈ (Orch.execute_pipeline cfgFallback [("message_text", "hi")] .full "e"
          [.failure "x", .failure "x"] bsInit 0).execution.steps,
        r.status = .failed →
        cfgFallback.routing.default_flow.contains r.name = true →
        ∀ fb, get_fallback_data cfgFallback r.name = some fb →
        ∀ kv ∈ fb,
          ctxHas (Orch.execute_pipeline cfgFallback [("message_text", "hi")] .full "e"
            [.failure "x", .failure "x"] bsInit 0).final_ctx kv.fst = true)) :=
  ⟨by decide,
    C6_thm cfgFallback [("message_text", "hi")] .full "e"
      [.failure "x", .failure "x"] bsInit 0 (by decide)⟩

/-- Counterexample to claim C6 as stated: `summarize` is critical (it is
the default flow) but disabled; the execution completes while its step
list is empty — the critical step never reached COMPLETED, by fallback or
otherwise. -/
theorem C6_counterexample :
    (Orch.execute_pipeline cfgDisabled [("message_text", "hi")] .full "e" []
        bsInit 0).execution.status = .completed ∧
    get_step_sequence cfgDisabled .full = ["summarize"] ∧
    cfgDisabled.routing.default_flow.contains "summarize" = true ∧
    (Orch.execute_pipeline cfgDisabled [("message_text", "hi")] .full "e" []
        bsInit 0).execution.steps = [] :=
  ⟨by decide, by decide, by decide, by decide⟩

/-- Claim C8, corrected (amended form): neither orchestrator ever
produces a SKIPPED step record; every record in a returned execution
belongs to an enabled, known step — disabled steps are skipped silently
and leave no record at all (see the counterexample for the original
claim). -/
theorem C8_thm :
    ∀ (cfg : Config) (input : Ctx) (mode : PipelineMode) (eid : String)
      (world : World) (bs : Breakers) (clock : Nat),
      (∀ r ∈ (Orch.execute_pipeline cfg input mode eid world bs clock).execution.steps,
        r.status ≠ .skipped ∧
        ∃ sc, get_step_config cfg r.name = some sc ∧ sc.enabled = true) ∧
      (∀ r ∈ (SimpleOrch.execute_pipeline cfg input mode eid world clock).execution.steps,
        r.status ≠ .skipped ∧
        ∃ sc, get_step_config cfg r.name = some sc ∧ sc.enabled = true) := by
  intro cfg input mode eid world bs clock
  exact ⟨fun r hr => runSteps_no_skipped cfg _ input world bs (clock + 1) r hr,
    fun r hr => simple_runSteps_no_skipped cfg eid input _ input world r hr⟩

/-- Witness for C8: the completed record of the all-success run is in the
step list, and the amended conclusion holds of it. -/
theorem C8_thm_witness :
    stepRecC8 ∈ (Orch.execute_pipeline cfgNoCb [] .full "e"
        [.success [("summary", "s")]] bsInit 0).execution.steps ∧
    (stepRecC8.status ≠ .skipped ∧
      ∃ sc, get_step_config cfgNoCb stepRecC8.name = some sc ∧
        sc.enabled = true) :=
  ⟨by decide,
    (C8_thm cfgNoCb [] .full "e" [.success [("summary", "s")]] bsInit 0).1
      stepRecC8 (by decide)⟩

/-- Counterexample to claim C8 as stated: the resolved sequence consists
of the one (disabled) step `summarize`, yet both orchestrators return an
empty step list — no SKIPPED record is appended, so the step list does
not contain one record per resolved step name. -/
theorem C8_counterexample :
    get_step_sequence cfgDisabled .full = ["summarize"] ∧
    (get_step_config cfgDisabled "summarize").map (fun sc => sc.enabled)
        = some false ∧
    (Orch.execute_pipeline cfgDisabled [("message_text", "hi")] .full "e" []
        bsInit 0).execution.steps = [] ∧
    (SimpleOrch.execute_pipeline cfgDisabled [("message_text", "hi")] .full "e" []
        0).execution.steps = [] :=
  ⟨by decide, by decide, by decide, by decide⟩

/-- Claim C9, corrected (amended form): the two implementations agree only
on benign runs — with the circuit breaker disabled and every step of the
async execution completed, the sync orchestrator produces the same step
records, the same final context, consumes the same HTTP outcomes, and
also reports COMPLETED.  They are *not* equivalent in general: they
diverge as soon as a step fails (see the counterexample). -/
theorem C9_thm :
    ∀ (cfg : Config) (input : Ctx) (mode : PipelineMode) (eid : String)
      (world : World) (bs : Breakers) (clock : Nat),
      cfg.error_handling.circuit_breaker.enabled = false →
      (Orch.execute_pipeline cfg input mode eid world bs clock).execution.status
          = .completed →
      (∀ r ∈ (Orch.execute_pipeline cfg input mode eid world bs clock).execution.steps,
        r.status = .completed) →
      (SimpleOrch.execute_pipeline cfg input mode eid world clock).execution.steps
          = (Orch.execute_pipeline cfg input mode eid world bs clock).execution.steps ∧
      (SimpleOrch.execute_pipeline cfg input mode eid world clock).final_ctx
          = (Orch.execute_pipeline cfg input mode eid world bs clock).final_ctx ∧
      (SimpleOrch.execute_pipeline cfg input mode eid world clock).world
          = (Orch.execute_pipeline cfg input mode eid world bs clock).world ∧
      (SimpleOrch.execute_pipeline cfg input mode eid world clock).execution.status
          = .completed := by
  intro cfg input mode eid world bs clock hcb hst hall
  have hok : (Orch.runSteps cfg (get_step_sequence cfg mode) input world bs
      (clock + 1)).outcome = .ok := by
    cases ho : (Orch.runSteps cfg (get_step_sequence cfg mode) input world bs
        (clock + 1)).outcome with
    | ok => rfl
    | exec_failed m =>
      exfalso
      have hf : (Orch.execute_pipeline cfg input mode eid world bs
          clock).execution.status = .failed := by
        simp [Orch.execute_pipeline, ho]
      rw [hf] at hst
      simp at hst
    | exc m =>
      exfalso
      have hf : (Orch.execute_pipeline cfg input mode eid world bs
          clock).execution.status = .failed := by
        simp [Orch.execute_pipeline, ho]
      rw [hf] at hst
      simp at hst
  have h := runSteps_agree cfg eid input hcb (get_step_sequence cfg mode)
    input world bs (clock + 1) hok hall
  exact ⟨h.1, h.2.1, h.2.2, rfl⟩

/-- Witness for C9: on the all-success run with the breaker disabled, the
two implementations produce identical steps, context and world. -/
theorem C9_thm_witness :
    cfgNoCb.error_handling.circuit_breaker.enabled = false ∧
    (Orch.execute_pipeline cfgNoCb [] .full "e" [.success [("summary", "s")]]
        bsInit 0).execution.status = .completed ∧
    (∀ r ∈ (Orch.execute_pipeline cfgNoCb [] .full "e"
        [.success [("summary", "s")]] bsInit 0).execution.steps,
      r.status = .completed) ∧
    ((SimpleOrch.execute_pipeline cfgNoCb [] .full "e"
        [.success [("summary", "s")]] 0).execution.steps
        = (Orch.execute_pipeline cfgNoCb [] .full "e"
          [.success [("summary", "s")]] bsInit 0).execution.steps ∧
      (SimpleOrch.execute_pipeline cfgNoCb [] .full "e"
        [.success [("summary", "s")]] 0).final_ctx
        = (Orch.execute_pipeline cfgNoCb [] .full "e"
          [.success [("summary", "s")]] bsInit 0).final_ctx ∧
      (SimpleOrch.execute_pipeline cfgNoCb [] .full "e"
        [.success [("summary", "s")]] 0).world
        = (Orch.execute_pipeline cfgNoCb [] .full "e"
          [.success [("summary", "s")]] bsInit 0).world ∧
      (SimpleOrch.execute_pipeline cfgNoCb [] .full "e"
        [.success [("summary", "s")]] 0).execution.status = .completed) :=
  ⟨by decide, by decide, by decide,
    C9_thm cfgNoCb [] .full "e" [.success [("summary", "s")]] bsInit 0
      (by decide) (by decide) (by decide)⟩

/-- Counterexample to claim C9 as stated: on the same payload, mode and
fixed sequence of downstream HTTP outcomes (two failures), the async
orchestrator returns a FAILED execution that stops at the critical step,
while the sync one merges hard-coded mock data and returns COMPLETED —
their execution statuses and final contexts differ. -/
theorem C9_counterexample :
    (Orch.execute_pipeline cfgRetry [("message_text", "hi")] .full "e"
        [.failure "b1", .failure "b2"] bsInit 0).execution.status = .failed ∧
    (SimpleOrch.execute_pipeline cfgRetry [("message_text", "hi")] .full "e"
        [.failure "b1", .failure "b2"] 0).execution.status = .completed ∧
    ctxHas (SimpleOrch.execute_pipeline cfgRetry [("message_text", "hi")] .full "e"
        [.failure "b1", .failure "b2"] 0).final_ctx "summary_id" = true ∧
    ctxHas (Orch.execute_pipeline cfgRetry [("message_text", "hi")] .full "e"
        [.failure "b1", .failure "b2"] bsInit 0).final_ctx "summary_id" = false :=
  ⟨by decide, by decide, by decide, by decide⟩

/-- Lengths of the COMPLETED-filter and FAILED-filter partitions add up
to the history length when every entry is terminal. -/
theorem filter_terminal_length (l : List PipelineExecution)
    (h : ∀ e ∈ l, e.status = .completed ∨ e.status = .failed) :
    (l.filter (fun e => e.status == StepStatus.completed)).length
      + (l.filter (fun e => e.status == StepStatus.failed)).length
      = l.length := by
  induction l with
  | nil => rfl
  | cons e t ih =>
    have ht := ih (fun x hx => h x (List.mem_cons_of_mem _ hx))
    rcases h e (List.mem_cons_self _ _) with hc | hf
    · simp only [List.filter_cons, hc]
      simp
      omega
    · simp only [List.filter_cons, hf]
      simp
      omega

/-- Claim C10: on an empty history the metrics dictionary is exactly the
single `total_executions = 0` entry; on a non-empty history of terminal
executions, `successful_executions + failed_executions =
total_executions`. -/
theorem C10_thm :
    get_pipeline_metrics [] = [("total_executions", MetricValue.num 0)] ∧
    ∀ history : List PipelineExecution, history ≠ [] →
      (∀ e ∈ history, e.status = .completed ∨ e.status = .failed) →
      ∃ t s f : ℚ,
        metricLookup (get_pipeline_metrics history) "total_executions"
            = some (.num t) ∧
        metricLookup (get_pipeline_metrics history) "successful_executions"
            = some (.num s) ∧
        metricLookup (get_pipeline_metrics history) "failed_executions"
            = some (.num f) ∧
        s + f = t := by
  constructor
  · rfl
  · intro history hne hterm
    have hne' : history.isEmpty = false := by
      cases history
      · exact absurd rfl hne
      · rfl
    refine ⟨(history.length : ℚ),
      ((history.filter (fun e => e.status == StepStatus.completed)).length : ℚ),
      ((history.filter (fun e => e.status == StepStatus.failed)).length : ℚ),
      ?_, ?_, ?_, ?_⟩
    · unfold get_pipeline_metrics
      rw [hne']
      rfl
    · unfold get_pipeline_metrics
      rw [hne']
      rfl
    · unfold get_pipeline_metrics
      rw [hne']
      rfl
    · exact_mod_cast filter_terminal_length history hterm

/-- Witness for C10: a two-element history with one COMPLETED and one
FAILED execution is non-empty and terminal, and the counts add up. -/
theorem C10_thm_witness :
    ([execCompleted, execFailedRec] : List PipelineExecution) ≠ [] ∧
    (∀ e ∈ ([execCompleted, execFailedRec] : List PipelineExecution),
      e.status = .completed ∨ e.status = .failed) ∧
    (∃ t s f : ℚ,
      metricLookup (get_pipeline_metrics [execCompleted, execFailedRec])
          "total_executions" = some (.num t) ∧
      metricLookup (get_pipeline_metrics [execCompleted, execFailedRec])
          "successful_executions" = some (.num s) ∧
      metricLookup (get_pipeline_metrics [execCompleted, execFailedRec])
          "failed_executions" = some (.num f) ∧
      s + f = t) :=
  ⟨by decide, by decide,
    C10_thm.2 [execCompleted, execFailedRec] (by decide) (by decide)⟩

end AiAssistant
